import Mathlib

/-!
Verification of the tank-management ledger engine.

This file is a shallow embedding, in Lean 4, of the core of the
tank-management backend:

* `backend/models/movements.py` / `backend/models/tanks.py` — the data model
  (`Movement`, `Tank`) with its default/manual override pairs and the
  effective-value accessors (pydantic `computed_field` properties);
* `backend/services/calculations.py` — the pure volume arithmetic
  (`get_effective_volume`, `calculate_tank_level`, `calculate_adjustment`,
  `apply_movement_to_level`, `get_volume_delta`);
* `backend/services/movement_service.py` — the recalculation engine and the
  movement lifecycle operations (`create`, `create_transfer`, `update`,
  `complete`, `create_imported_adjustment`, `delete`).

Modelling conventions:

* Python floats are modelled by `ℚ`; `round(x, 2)` is modelled by exact
  rational rounding to 2 decimals with round-half-to-even (CPython's rounding
  mode, `round2` below).
* Calendar dates are modelled by `Nat` (ordinal days); `datetime` creation
  timestamps by `Nat`.  `date.today()` is passed in explicitly as `today`.
* The Cosmos document store is modelled by a `List Movement` (resp.
  `List Tank`) in creation (insertion) order.  A query with an `ORDER BY`
  clause is modelled as a stable sort of the filtered store by the ordered
  field (`null` sorting first on ascending order, last on descending order),
  followed by `take limit` when the call site passes a `limit`.  A stable
  sort is the deterministic refinement of the store's unspecified tie
  behaviour that matches insertion order; Python's `list.sort` (Timsort) is
  stable, so it is modelled by the same stable sort.
* Fallible operations return an explicit error value; service operations
  thread the two stores explicitly and return them at the point where the
  Python code raises, so that "no write has occurred before the error" is a
  provable property of the embedding rather than an artifact of it.
-/

set_option maxHeartbeats 1000000
set_option maxRecDepth 10000

namespace TankMgmt

/-- `models/shared.py` — `MovementType`. -/
inductive MovementType where
  | load
  | discharge
  | transfer
  | adjustment
deriving DecidableEq, Repr

/-- `models/movements.py` — `Movement` (= `MovementBase` plus `id` and
`created_at`).  Provenance passthrough fields that the ledger never reads
(`source`, `signal_id`, `refinery_tank_name`, `nomination_key`) are omitted;
`pdf_url` is kept because `create_imported_adjustment` writes it. -/
structure Movement where
  type : MovementType
  target_tank_id : Option String := none
  actual_volume : Option ℚ := none
  resulting_volume : Option ℚ := none
  target_resulting_volume : Option ℚ := none
  pdf_url : Option String := none
  tank_id_default : Option String := none
  tank_id_manual : Option String := none
  expected_volume_default : Option ℚ := none
  expected_volume_manual : Option ℚ := none
  scheduled_date_default : Option Nat := none
  scheduled_date_manual : Option Nat := none
  notes_default : Option String := none
  notes_manual : Option String := none
  trade_number_default : Option String := none
  trade_number_manual : Option String := none
  trade_line_item_default : Option String := none
  trade_line_item_manual : Option String := none
  strategy_default : Option Int := none
  strategy_manual : Option Int := none
  destination_default : Option String := none
  destination_manual : Option String := none
  equipment_default : Option String := none
  equipment_manual : Option String := none
  discharge_date_default : Option Nat := none
  discharge_date_manual : Option Nat := none
  base_diff_default : Option ℚ := none
  base_diff_manual : Option ℚ := none
  quality_adj_diff_default : Option ℚ := none
  quality_adj_diff_manual : Option ℚ := none
  id : String := ""
  created_at : Nat := 0
deriving DecidableEq, Repr

/-- `models/tanks.py` — `Tank` (fields the ledger engine reads). -/
structure Tank where
  id : String
  capacity : ℚ
  initial_level : ℚ := 0
  current_level : ℚ := 0
deriving DecidableEq, Repr

namespace Movement

/-- computed field `tank_id`: `tank_id_manual if not None else tank_id_default`. -/
def tank_id (m : Movement) : Option String :=
  match m.tank_id_manual with
  | some v => some v
  | none => m.tank_id_default

/-- computed field `expected_volume`. -/
def expected_volume (m : Movement) : Option ℚ :=
  match m.expected_volume_manual with
  | some v => some v
  | none => m.expected_volume_default

/-- computed field `scheduled_date`. -/
def scheduled_date (m : Movement) : Option Nat :=
  match m.scheduled_date_manual with
  | some v => some v
  | none => m.scheduled_date_default

/-- computed field `notes`. -/
def notes (m : Movement) : Option String :=
  match m.notes_manual with
  | some v => some v
  | none => m.notes_default

/-- computed field `trade_number`. -/
def trade_number (m : Movement) : Option String :=
  match m.trade_number_manual with
  | some v => some v
  | none => m.trade_number_default

/-- computed field `trade_line_item`. -/
def trade_line_item (m : Movement) : Option String :=
  match m.trade_line_item_manual with
  | some v => some v
  | none => m.trade_line_item_default

/-- computed field `strategy`. -/
def strategy (m : Movement) : Option Int :=
  match m.strategy_manual with
  | some v => some v
  | none => m.strategy_default

/-- computed field `destination`. -/
def destination (m : Movement) : Option String :=
  match m.destination_manual with
  | some v => some v
  | none => m.destination_default

/-- computed field `equipment`. -/
def equipment (m : Movement) : Option String :=
  match m.equipment_manual with
  | some v => some v
  | none => m.equipment_default

/-- computed field `discharge_date`. -/
def discharge_date (m : Movement) : Option Nat :=
  match m.discharge_date_manual with
  | some v => some v
  | none => m.discharge_date_default

/-- computed field `base_diff`. -/
def base_diff (m : Movement) : Option ℚ :=
  match m.base_diff_manual with
  | some v => some v
  | none => m.base_diff_default

/-- computed field `quality_adj_diff`. -/
def quality_adj_diff (m : Movement) : Option ℚ :=
  match m.quality_adj_diff_manual with
  | some v => some v
  | none => m.quality_adj_diff_default

end Movement

/-- CPython `round` uses round-half-to-even; this is that rounding on `ℚ`,
to an integer. -/
def roundHalfEven (q : ℚ) : ℤ :=
  let f : ℤ := ⌊q⌋
  let r : ℚ := q - f
  if r < 1/2 then f
  else if 1/2 < r then f + 1
  else if 2 ∣ f then f else f + 1

/-- `round(x, 2)` as exact rational rounding. -/
def round2 (q : ℚ) : ℚ := (roundHalfEven (q * 100) : ℚ) / 100

/-- `calculations.get_effective_volume`: `actual_volume` if set, otherwise
`expected_volume or 0`. -/
def get_effective_volume (movement : Movement) : ℚ :=
  match movement.actual_volume with
  | some v => v
  | none => (movement.expected_volume).getD 0

/-- The loop body of `calculate_tank_level` (the branch chain on the movement
type), without the date-skip test and without clamping. -/
def calculate_level_step (tank_id : String) (level : ℚ) (movement : Movement) : ℚ :=
  let volume := get_effective_volume movement
  if movement.type = MovementType.load ∧ movement.tank_id = some tank_id then
    level + volume
  else if movement.type = MovementType.discharge ∧ movement.tank_id = some tank_id then
    level - volume
  else if movement.type = MovementType.transfer then
    if movement.tank_id = some tank_id then level - volume
    else if movement.target_tank_id = some tank_id then level + volume
    else level
  else if movement.type = MovementType.adjustment ∧ movement.tank_id = some tank_id then
    level + volume
  else level

/-- `calculations.calculate_tank_level`: replay a movement list from
`tank.initial_level`, skipping movements dated after the cutoff, and clamp
the final result at zero.  `cutoff = as_of or date.today()`. -/
def calculate_tank_level (tank : Tank) (movements : List Movement)
    (as_of : Option Nat) (today : Nat) : ℚ :=
  let cutoff := as_of.getD today
  let level := movements.foldl
    (fun level movement =>
      match movement.scheduled_date with
      | some d =>
        if cutoff < d then level
        else calculate_level_step tank.id level movement
      | none => calculate_level_step tank.id level movement)
    tank.initial_level
  max 0 level

/-- `calculations.calculate_adjustment`. -/
def calculate_adjustment (current_level physical_level : ℚ) : ℚ :=
  physical_level - current_level

/-- `calculations.apply_movement_to_level`: apply one movement's effect and
clamp at zero. -/
def apply_movement_to_level (level : ℚ) (movement : Movement) (tank_id : String) : ℚ :=
  let volume := get_effective_volume movement
  let level :=
    if movement.type = MovementType.load ∧ movement.tank_id = some tank_id then
      level + volume
    else if movement.type = MovementType.discharge ∧ movement.tank_id = some tank_id then
      level - volume
    else if movement.type = MovementType.transfer then
      if movement.tank_id = some tank_id then level - volume
      else if movement.target_tank_id = some tank_id then level + volume
      else level
    else if movement.type = MovementType.adjustment ∧ movement.tank_id = some tank_id then
      level + volume
    else level
  max 0 level

/-- `calculations.get_volume_delta`: the signed volume change a movement
causes for a specific tank. -/
def get_volume_delta (movement : Movement) (tank_id : String) : ℚ :=
  let volume := get_effective_volume movement
  if movement.type = MovementType.load ∧ movement.tank_id = some tank_id then
    volume
  else if movement.type = MovementType.discharge ∧ movement.tank_id = some tank_id then
    -volume
  else if movement.type = MovementType.transfer ∧ movement.tank_id = some tank_id then
    -volume
  else if movement.type = MovementType.transfer ∧ movement.target_tank_id = some tank_id then
    volume
  else if movement.type = MovementType.adjustment ∧ movement.tank_id = some tank_id then
    volume
  else 0

/-! ## Stable sorting

Both Cosmos DB's `ORDER BY` (as modelled on an insertion-ordered store) and
Python's `list.sort` (Timsort) are modelled by a stable insertion sort on a
boolean comparator.  Stability means an earlier element precedes a later one
whenever their keys tie, which is exactly Timsort's guarantee; the facts
proved below (permutation, sortedness, stability, commutation with `map`)
are all the sorting facts the claims need. -/

/-- Insert `a` into `l` in front of the first element `b` with `le a b`. -/
def sortedInsert (le : α → α → Bool) (a : α) : List α → List α
  | [] => [a]
  | b :: t => if le a b then a :: b :: t else b :: sortedInsert le a t

/-- Stable insertion sort by a boolean comparator. -/
def sortB (le : α → α → Bool) : List α → List α
  | [] => []
  | a :: t => sortedInsert le a (sortB le t)

/-- The stability relation: after a stable sort by `le`, consecutive elements
are either strictly ordered by `le`, or tied with the original order `R`
between them. -/
def stableRel (le : α → α → Bool) (R : α → α → Prop) (a b : α) : Prop :=
  (le a b = true ∧ ¬ le b a = true) ∨ (le a b = true ∧ le b a = true ∧ R a b)

/-! ## The movement store and its queries

`movement_service.py` reads the store through three query shapes.  Each is
modelled as: filter the (insertion-ordered) store by the Cosmos `WHERE`
conditions, stable-sort by the `ORDER BY` field, truncate by `LIMIT` when the
call site passes one, then apply the Python-side filtering/sorting verbatim. -/

/-- Cosmos `ORDER BY` comparison on a possibly-null date field: `null` sorts
lowest (hence first ascending, last descending). -/
def optDateLeB : Option Nat → Option Nat → Bool
  | none, _ => true
  | some _, none => false
  | some a, some b => decide (a ≤ b)

/-- `ORDER BY c.scheduled_date_default ASC`. -/
def defDateAscB (a b : Movement) : Bool :=
  optDateLeB a.scheduled_date_default b.scheduled_date_default

/-- `ORDER BY c.scheduled_date_default DESC`. -/
def defDateDescB (a b : Movement) : Bool :=
  optDateLeB b.scheduled_date_default a.scheduled_date_default

/-- `ORDER BY c.created_at ASC`. -/
def createdAscB (a b : Movement) : Bool := decide (a.created_at ≤ b.created_at)

/-- Python sort key `m.scheduled_date or date.min`, with `date.min = 0`. -/
def effDateKey (m : Movement) : Nat := (m.scheduled_date).getD 0

/-- `movements.sort(key=lambda m: m.scheduled_date or date.min)`. -/
def effDateAscB (a b : Movement) : Bool := decide (effDateKey a ≤ effDateKey b)

/-- The same sort with `reverse=True` (still stable: ties keep their order). -/
def effDateDescB (a b : Movement) : Bool := decide (effDateKey b ≤ effDateKey a)

/-- WHERE condition
`c.tank_id_default = @tank_id OR c.tank_id_manual = @tank_id OR c.target_tank_id = @tank_id`. -/
def tankMatchB (tank_id : String) (m : Movement) : Bool :=
  m.tank_id_default == some tank_id || m.tank_id_manual == some tank_id ||
    m.target_tank_id == some tank_id

/-- A date-field comparison in a WHERE clause; a null field never compares. -/
def dateGeB (x : Option Nat) (d : Nat) : Bool :=
  match x with
  | some v => decide (d ≤ v)
  | none => false

/-- See `dateGeB`. -/
def dateLtB (x : Option Nat) (d : Nat) : Bool :=
  match x with
  | some v => decide (v < d)
  | none => false

/-- See `dateGeB`. -/
def dateEqB (x : Option Nat) (d : Nat) : Bool := x == some d

/-- `MovementService._get_tank_movements_from_date`: movements touching the
tank with effective date `>= from_date`, minus the excluded movement, sorted
by effective scheduled date (stable over the query's default-date order). -/
def get_tank_movements_from_date (store : List Movement) (tank_id : String)
    (from_date : Nat) (exclude_movement_id : Option String) : List Movement :=
  let fetched := sortB defDateAscB (store.filter (fun m =>
    tankMatchB tank_id m &&
      (dateGeB m.scheduled_date_default from_date ||
        dateGeB m.scheduled_date_manual from_date)))
  let fetched :=
    match exclude_movement_id with
    | some ex => fetched.filter (fun m : Movement => !(m.id == ex))
    | none => fetched
  let fetched := fetched.filter (fun m => dateGeB m.scheduled_date from_date)
  sortB effDateAscB fetched

/-- The body of the scan loop in `_get_starting_volume_for_tank`: the recorded
volume this movement carries for `tank_id`, if any. -/
def recordedVolume (tank_id : String) (m : Movement) : Option ℚ :=
  if m.tank_id = some tank_id ∧ m.resulting_volume.isSome then m.resulting_volume
  else if m.target_tank_id = some tank_id ∧ m.target_resulting_volume.isSome then
    m.target_resulting_volume
  else none

/-- `MovementService._get_starting_volume_for_tank`: the tank volume just
before `before_date`.  The query fetches at most 100 candidates (`limit=100`),
ordered by default scheduled date descending; Python then filters by effective
date, re-sorts (stably) by effective date descending, scans for a recorded
volume, and otherwise replays the fetched movements from `initial_level`. -/
def get_starting_volume_for_tank (store : List Movement) (tank : Tank)
    (before_date : Nat) : ℚ :=
  let fetched := (sortB defDateDescB (store.filter (fun m =>
    tankMatchB tank.id m &&
      (dateLtB m.scheduled_date_default before_date ||
        dateLtB m.scheduled_date_manual before_date)))).take 100
  let movements := fetched.filter (fun m => dateLtB m.scheduled_date before_date)
  let movements := sortB effDateDescB movements
  if movements.isEmpty then tank.initial_level
  else
    match movements.findSome? (recordedVolume tank.id) with
    | some v => v
    | none => calculate_tank_level tank (sortB effDateAscB movements)
        (some (before_date - 1)) 0

/-- The candidate window of `_get_starting_volume_for_tank` after the
Python-side effective-date filter: the (at most 100) fetched movements that
actually have an effective date before `before_date`.  (A named projection of
the definition above, used to state facts about the scan.) -/
def startingCandidates (store : List Movement) (tank : Tank)
    (before_date : Nat) : List Movement :=
  ((sortB defDateDescB (store.filter (fun m =>
    tankMatchB tank.id m &&
      (dateLtB m.scheduled_date_default before_date ||
        dateLtB m.scheduled_date_manual before_date)))).take 100).filter
    (fun m => dateLtB m.scheduled_date before_date)

/-- `MovementService._get_available_volume_for_movement`: the starting volume
on `scheduled_date` further adjusted by every other movement whose effective
date equals `scheduled_date`, in the query's `created_at` order. -/
def get_available_volume_for_movement (store : List Movement) (tank : Tank)
    (scheduled_date : Nat) (exclude_movement_id : Option String) : ℚ :=
  let starting_volume := get_starting_volume_for_tank store tank scheduled_date
  let fetched := sortB createdAscB (store.filter (fun m =>
    tankMatchB tank.id m &&
      (dateEqB m.scheduled_date_default scheduled_date ||
        dateEqB m.scheduled_date_manual scheduled_date)))
  let movements := fetched.filter (fun m => m.scheduled_date == some scheduled_date)
  let movements :=
    match exclude_movement_id with
    | some ex => movements.filter (fun m : Movement => !(m.id == ex))
    | none => movements
  movements.foldl (fun available m => apply_movement_to_level available m tank.id)
    starting_volume

/-- `CosmosStorage.update(id, {"resulting_volume": v})` on the movement store. -/
def updateResultingVolume (store : List Movement) (id : String) (v : ℚ) :
    List Movement :=
  store.map (fun m => if m.id = id then { m with resulting_volume := some v } else m)

/-- `CosmosStorage.update(id, {"target_resulting_volume": v})`. -/
def updateTargetResultingVolume (store : List Movement) (id : String) (v : ℚ) :
    List Movement :=
  store.map (fun m =>
    if m.id = id then { m with target_resulting_volume := some v } else m)

/-- One iteration of the `_recalculate_tank_volumes` loop: apply the movement
to the running level, persist the rounded level on the movement (as
`resulting_volume` if the tank is the movement's source, as
`target_resulting_volume` if it is the transfer's target), and track the
level as of `today`.  State: (store, current_level, level_as_of_today). -/
def recalcStep (tank : Tank) (today : Nat) (st : List Movement × ℚ × ℚ)
    (movement : Movement) : List Movement × ℚ × ℚ :=
  let current_level := apply_movement_to_level st.2.1 movement tank.id
  let store :=
    if movement.tank_id = some tank.id then
      updateResultingVolume st.1 movement.id (round2 current_level)
    else if movement.target_tank_id = some tank.id then
      updateTargetResultingVolume st.1 movement.id (round2 current_level)
    else st.1
  let level_as_of_today :=
    match movement.scheduled_date with
    | some d => if d ≤ today then current_level else st.2.2
    | none => st.2.2
  (store, current_level, level_as_of_today)

/-- `MovementService._recalculate_tank_volumes`: recompute and persist the
resulting volumes of every movement of the tank from `from_date` forward;
return the written store and the rounded tank level as of `today`. -/
def recalculate_tank_volumes (store : List Movement) (tank : Tank)
    (from_date : Nat) (exclude_movement_id : Option String) (today : Nat) :
    List Movement × ℚ :=
  let starting_volume := get_starting_volume_for_tank store tank from_date
  let movements := get_tank_movements_from_date store tank.id from_date
    exclude_movement_id
  let st := movements.foldl (recalcStep tank today)
    (store, starting_volume, starting_volume)
  (st.1, round2 st.2.2)

/-! ## Movement lifecycle operations

Each public `MovementService` operation is modelled as a function from the
pair of stores (movements, tanks) to the updated stores plus a result or a
service error.  The Python code raises `MovementServiceError` at specific
program points; the model returns the stores exactly as they are at the
corresponding point, so "the stores are unchanged on error" is a genuine
property of the control flow, not of the encoding.  Fresh uuids and `utc_now`
timestamps are passed in explicitly (`new_id` / `newIds`, `now`), as is
`date.today()`. -/

/-- The errors `movement_service.py` raises (constructor names paraphrase the
message strings).  `dateMissing` models the `AttributeError` the Python code
would hit when it calls the availability check with a `None` date, and
`invalidExpectedVolume` models the pydantic `ValidationError` raised when a
`Movement` is constructed with `expected_volume_default` failing its `gt=0`
field constraint; neither is a `MovementServiceError` in the source. -/
inductive SvcError where
  | tankNotFound
  | targetTankRequired
  | targetTankNotFound
  | sameSourceAndTarget
  | insufficientFeedstock (available : ℚ)
  | sourceTankNotFound
  | atLeastOneTargetRequired
  | movementNotFound
  | cannotEditCompleted
  | alreadyCompleted
  | physicalLevelExceedsCapacity
  | updateFailed
  | refetchFailed
  | dateMissing
  | invalidExpectedVolume
deriving DecidableEq, Repr

/-- The two document stores an operation touches. -/
structure St where
  movements : List Movement
  tanks : List Tank
deriving DecidableEq, Repr

/-- `CosmosStorage.get_by_id` on the tank store. -/
def getTank (tanks : List Tank) (id : String) : Option Tank :=
  tanks.find? (fun t => t.id == id)

/-- `CosmosStorage.get_by_id` on the movement store. -/
def getMovement (store : List Movement) (id : String) : Option Movement :=
  store.find? (fun m => m.id == id)

/-- `MovementService._update_tank_current_level`. -/
def update_tank_current_level (tanks : List Tank) (tank_id : String)
    (new_level : ℚ) : List Tank :=
  tanks.map (fun t =>
    if t.id = tank_id then { t with current_level := round2 new_level } else t)

/-- `models/movements.py` — `MovementCreate`. -/
structure MovementCreate where
  type : MovementType
  tank_id : String
  target_tank_id : Option String := none
  expected_volume : ℚ
  scheduled_date : Nat
  notes : Option String := none
deriving Repr

/-- `models/movements.py` — `TransferTarget`. -/
structure TransferTarget where
  tank_id : String
  volume : ℚ
deriving DecidableEq, Repr

/-- `models/movements.py` — `TransferCreate`. -/
structure TransferCreate where
  source_tank_id : String
  targets : List TransferTarget
  scheduled_date : Nat
  notes : Option String := none
deriving Repr

/-- `models/movements.py` — `MovementUpdate` (all fields manual overrides). -/
structure MovementUpdate where
  scheduled_date_manual : Option Nat := none
  expected_volume_manual : Option ℚ := none
  notes_manual : Option String := none
  tank_id_manual : Option String := none
  trade_number_manual : Option String := none
  trade_line_item_manual : Option String := none
  strategy_manual : Option Int := none
  destination_manual : Option String := none
  equipment_manual : Option String := none
  discharge_date_manual : Option Nat := none
  base_diff_manual : Option ℚ := none
  quality_adj_diff_manual : Option ℚ := none
deriving Repr

/-- The transfer-target validation block at the top of
`MovementService.create`. -/
def createTargetCheck (st : St) (movement_data : MovementCreate) :
    Except SvcError (Option Tank) :=
  if movement_data.type = MovementType.transfer then
    match movement_data.target_tank_id with
    | none => .error .targetTankRequired
    | some tid =>
      match getTank st.tanks tid with
      | none => .error .targetTankNotFound
      | some target_tank =>
        if movement_data.tank_id = tid then .error .sameSourceAndTarget
        else .ok (some target_tank)
  else .ok none

/-- `MovementService.create`. -/
def create (st : St) (movement_data : MovementCreate) (new_id : String)
    (now : Nat) (today : Nat) : St × Except SvcError Movement :=
  match getTank st.tanks movement_data.tank_id with
  | none => (st, .error .tankNotFound)
  | some tank =>
    match createTargetCheck st movement_data with
    | .error e => (st, .error e)
    | .ok target_tank =>
      let is_future_movement := today < movement_data.scheduled_date
      let available_level := get_available_volume_for_movement st.movements tank
        movement_data.scheduled_date none
      if (movement_data.type = MovementType.discharge ∨
            movement_data.type = MovementType.transfer) ∧
          available_level < movement_data.expected_volume then
        (st, .error (.insufficientFeedstock available_level))
      else
        let delta := get_volume_delta
          { type := movement_data.type,
            tank_id_default := some movement_data.tank_id,
            target_tank_id := movement_data.target_tank_id,
            expected_volume_default := some movement_data.expected_volume }
          movement_data.tank_id
        let new_source_level := max 0 (round2 (tank.current_level + delta))
        let new_target_level : Option ℚ :=
          match target_tank with
          | some tt => some (round2 (tt.current_level + movement_data.expected_volume))
          | none => none
        let movement : Movement :=
          { type := movement_data.type,
            tank_id_default := some movement_data.tank_id,
            target_tank_id := movement_data.target_tank_id,
            expected_volume_default := some movement_data.expected_volume,
            actual_volume := none,
            scheduled_date_default := some movement_data.scheduled_date,
            notes_default := movement_data.notes,
            resulting_volume := some new_source_level,
            target_resulting_volume := new_target_level,
            id := new_id, created_at := now }
        let store := st.movements ++ [movement]
        let r1 := recalculate_tank_volumes store tank movement_data.scheduled_date
          none today
        let store := r1.1
        let tanks :=
          if is_future_movement then st.tanks
          else update_tank_current_level st.tanks tank.id r1.2
        let str :=
          match target_tank with
          | some tt =>
            let r2 := recalculate_tank_volumes store tt movement_data.scheduled_date
              none today
            (r2.1,
              if is_future_movement then tanks
              else update_tank_current_level tanks tt.id r2.2)
          | none => (store, tanks)
        match getMovement str.1 new_id with
        | some created => (⟨str.1, str.2⟩, .ok created)
        | none => (⟨str.1, str.2⟩, .error .refetchFailed)

/-- The per-target loop of `MovementService.create_transfer`: looks the target
tank up (raising after earlier targets were already written), computes the
provisional levels, and appends the new movement.  State carried: index,
movement store, created list, running source level. -/
def create_transfer_go (tanks : List Tank) (source_tank_id : String)
    (scheduled_date : Nat) (notes : Option String) (newIds : Nat → String)
    (now : Nat) (k : Nat) (store : List Movement) (created : List Movement)
    (running : ℚ) :
    List TransferTarget → List Movement × List Movement × ℚ × Option SvcError
  | [] => (store, created, running, none)
  | target :: rest =>
    match getTank tanks target.tank_id with
    | none => (store, created, running, some .targetTankNotFound)
    | some target_tank =>
      let running' := max 0 (round2 (running - target.volume))
      let new_target_level := round2 (target_tank.current_level + target.volume)
      let movement : Movement :=
        { type := MovementType.transfer,
          tank_id_default := some source_tank_id,
          target_tank_id := some target.tank_id,
          expected_volume_default := some target.volume,
          actual_volume := none,
          scheduled_date_default := some scheduled_date,
          notes_default := notes,
          resulting_volume := some running',
          target_resulting_volume := some new_target_level,
          id := newIds k, created_at := now + k }
      create_transfer_go tanks source_tank_id scheduled_date notes newIds now
        (k + 1) (store ++ [movement]) (created ++ [movement]) running' rest

/-- `MovementService.create_transfer`.  The Python code iterates a `set` of
target ids for the per-target recalculation; the model iterates the
first-occurrence order (`dedup`), a deterministic refinement. -/
def create_transfer (st : St) (transfer_data : TransferCreate)
    (newIds : Nat → String) (now : Nat) (today : Nat) :
    St × Except SvcError (List Movement) :=
  match getTank st.tanks transfer_data.source_tank_id with
  | none => (st, .error .sourceTankNotFound)
  | some source_tank =>
    if transfer_data.targets = [] then (st, .error .atLeastOneTargetRequired)
    else if transfer_data.source_tank_id ∈
        transfer_data.targets.map TransferTarget.tank_id then
      (st, .error .sameSourceAndTarget)
    else
      let is_future_movement := today < transfer_data.scheduled_date
      let total_volume := (transfer_data.targets.map TransferTarget.volume).sum
      let available_level :=
        if is_future_movement then source_tank.current_level
        else get_starting_volume_for_tank st.movements source_tank
          transfer_data.scheduled_date
      if available_level < total_volume then
        (st, .error (.insufficientFeedstock available_level))
      else
        let go := create_transfer_go st.tanks transfer_data.source_tank_id
          transfer_data.scheduled_date transfer_data.notes newIds now 0
          st.movements [] source_tank.current_level transfer_data.targets
        match go.2.2.2 with
        | some e => ({ st with movements := go.1 }, .error e)
        | none =>
          let store := go.1
          let created := go.2.1
          let r1 := recalculate_tank_volumes store source_tank
            transfer_data.scheduled_date none today
          let store := r1.1
          let tanks :=
            if is_future_movement then st.tanks
            else update_tank_current_level st.tanks source_tank.id r1.2
          let str := ((transfer_data.targets.map TransferTarget.tank_id).dedup).foldl
            (fun (acc : List Movement × List Tank) target_id =>
              match getTank acc.2 target_id with
              | some target_tank =>
                let r2 := recalculate_tank_volumes acc.1 target_tank
                  transfer_data.scheduled_date none today
                (r2.1,
                  if is_future_movement then acc.2
                  else update_tank_current_level acc.2 target_id r2.2)
              | none => acc)
            (store, tanks)
          let refetched := created.map (fun m => (getMovement str.1 m.id).getD m)
          (⟨str.1, str.2⟩, .ok refetched)

/-- Writing `update_data` (the manual-override fields that were provided) to a
stored movement: `CosmosStorage.update` merges the provided keys. -/
def applyMovementUpdate (data : MovementUpdate) (m : Movement) : Movement :=
  let m := match data.scheduled_date_manual with
    | some v => { m with scheduled_date_manual := some v }
    | none => m
  let m := match data.expected_volume_manual with
    | some v => { m with expected_volume_manual := some v }
    | none => m
  let m := match data.notes_manual with
    | some v => { m with notes_manual := some v }
    | none => m
  let m := match data.tank_id_manual with
    | some v => { m with tank_id_manual := some v }
    | none => m
  let m := match data.trade_number_manual with
    | some v => { m with trade_number_manual := some v }
    | none => m
  let m := match data.trade_line_item_manual with
    | some v => { m with trade_line_item_manual := some v }
    | none => m
  let m := match data.strategy_manual with
    | some v => { m with strategy_manual := some v }
    | none => m
  let m := match data.destination_manual with
    | some v => { m with destination_manual := some v }
    | none => m
  let m := match data.equipment_manual with
    | some v => { m with equipment_manual := some v }
    | none => m
  let m := match data.discharge_date_manual with
    | some v => { m with discharge_date_manual := some v }
    | none => m
  let m := match data.base_diff_manual with
    | some v => { m with base_diff_manual := some v }
    | none => m
  match data.quality_adj_diff_manual with
  | some v => { m with quality_adj_diff_manual := some v }
  | none => m

/-- Is the `update_data` dict empty (no field provided)? -/
def movementUpdateEmpty (data : MovementUpdate) : Bool :=
  data.scheduled_date_manual == none && data.expected_volume_manual == none &&
  data.notes_manual == none && data.tank_id_manual == none &&
  data.trade_number_manual == none && data.trade_line_item_manual == none &&
  data.strategy_manual == none && data.destination_manual == none &&
  data.equipment_manual == none && data.discharge_date_manual == none &&
  data.base_diff_manual == none && data.quality_adj_diff_manual == none

/-- The recalculation block at the end of `MovementService.update` (runs when
volume, tank, or scheduled date changed). -/
def updateRecalc (st : St) (updated : Movement) (old_tank_id : Option String)
    (tank_changed : Bool) (recalc_from_date : Option Nat) (today : Nat) : St :=
  let str : List Movement × List Tank :=
    match updated.tank_id with
    | some tid =>
      match getTank st.tanks tid, recalc_from_date with
      | some tank, some d =>
        let r := recalculate_tank_volumes st.movements tank d none today
        (r.1, update_tank_current_level st.tanks tank.id r.2)
      | _, _ => (st.movements, st.tanks)
    | none => (st.movements, st.tanks)
  let str :=
    if updated.type = MovementType.transfer then
      match updated.target_tank_id with
      | some tid =>
        match getTank str.2 tid, recalc_from_date with
        | some target_tank, some d =>
          let r := recalculate_tank_volumes str.1 target_tank d none today
          (r.1, update_tank_current_level str.2 target_tank.id r.2)
        | _, _ => str
      | none => str
    else str
  let str :=
    if tank_changed then
      match old_tank_id with
      | some tid =>
        match getTank str.2 tid, recalc_from_date with
        | some old_tank, some d =>
          let r := recalculate_tank_volumes str.1 old_tank d none today
          (r.1, update_tank_current_level str.2 old_tank.id r.2)
        | _, _ => str
      | none => str
    else str
  ⟨str.1, str.2⟩

/-- The feedstock validation inside the `expected_volume_manual` branch of
`MovementService.update`. -/
def updateValidation (st : St) (movement : Movement) (data : MovementUpdate) :
    Except SvcError Unit :=
  match data.expected_volume_manual with
  | none => .ok ()
  | some v =>
    if movement.type = MovementType.discharge ∨
        movement.type = MovementType.transfer then
      let effective_tank_id :=
        match data.tank_id_manual with
        | some t => some t
        | none => movement.tank_id
      let effective_date :=
        match data.scheduled_date_manual with
        | some d => some d
        | none => movement.scheduled_date
      match effective_tank_id with
      | none => .error .tankNotFound
      | some tid =>
        match getTank st.tanks tid with
        | none => .error .tankNotFound
        | some tank =>
          match effective_date with
          | none => .error .dateMissing
          | some d =>
            let available := get_available_volume_for_movement st.movements
              tank d (some movement.id)
            if available < v then .error (.insufficientFeedstock available)
            else .ok ()
    else .ok ()

/-- `MovementService.update`. -/
def update (st : St) (movement_id : String) (data : MovementUpdate)
    (today : Nat) : St × Except SvcError Movement :=
  match getMovement st.movements movement_id with
  | none => (st, .error .movementNotFound)
  | some movement =>
    if movement.actual_volume.isSome then (st, .error .cannotEditCompleted)
    else
      let old_volume := (movement.expected_volume).getD 0
      let old_scheduled_date := movement.scheduled_date
      let old_tank_id := movement.tank_id
      let scheduled_date_changed :=
        match data.scheduled_date_manual with
        | some d => old_scheduled_date ≠ some d
        | none => false
      let volume_changed :=
        match data.expected_volume_manual with
        | some v => v ≠ old_volume
        | none => false
      let tank_changed :=
        match data.tank_id_manual with
        | some t => old_tank_id ≠ some t
        | none => false
      match updateValidation st movement data with
      | .error e => (st, .error e)
      | .ok _ =>
        if movementUpdateEmpty data then (st, .ok movement)
        else
          let store := st.movements.map (fun m =>
            if m.id = movement_id then applyMovementUpdate data m else m)
          match getMovement store movement_id with
          | none => (st, .error .updateFailed)
          | some updated =>
            if volume_changed || tank_changed || scheduled_date_changed then
              let new_scheduled_date := updated.scheduled_date
              let recalc_from_date :=
                match scheduled_date_changed, old_scheduled_date,
                    new_scheduled_date with
                | true, some od, some nd => some (min od nd)
                | _, _, _ => new_scheduled_date
              let st' := updateRecalc ⟨store, st.tanks⟩ updated old_tank_id
                tank_changed recalc_from_date today
              match getMovement st'.movements movement_id with
              | some refetched => (st', .ok refetched)
              | none => (st', .error .refetchFailed)
            else (⟨store, st.tanks⟩, .ok updated)

/-- The common "fetch the written movement back and return it, or raise"
tail of `complete` / `create_imported_adjustment`. -/
def refetchResult (str : List Movement × List Tank) (movement_id : String) :
    St × Except SvcError Movement :=
  match getMovement str.1 movement_id with
  | some updated => (⟨str.1, str.2⟩, .ok updated)
  | none => (⟨str.1, str.2⟩, .error .refetchFailed)

/-- `MovementService.complete`. -/
def complete (st : St) (movement_id : String) (actual_volume : ℚ)
    (today : Nat) : St × Except SvcError Movement :=
  match getMovement st.movements movement_id with
  | none => (st, .error .movementNotFound)
  | some movement =>
    if movement.actual_volume.isSome then (st, .error .alreadyCompleted)
    else
      let store := st.movements.map (fun m =>
        if m.id = movement_id then { m with actual_volume := some actual_volume }
        else m)
      let str : List Movement × List Tank :=
        match movement.tank_id, movement.scheduled_date with
        | some tid, some d =>
          match getTank st.tanks tid with
          | some tank =>
            let r := recalculate_tank_volumes store tank d none today
            (r.1, update_tank_current_level st.tanks tank.id r.2)
          | none => (store, st.tanks)
        | _, _ => (store, st.tanks)
      let str :=
        if movement.type = MovementType.transfer then
          match movement.target_tank_id, movement.scheduled_date with
          | some tid, some d =>
            match getTank str.2 tid with
            | some target_tank =>
              let r := recalculate_tank_volumes str.1 target_tank d none today
              (r.1, update_tank_current_level str.2 target_tank.id r.2)
            | none => str
          | _, _ => str
        else str
      refetchResult str movement_id

/-- `MovementService.create_imported_adjustment`.  The human-readable note
text is modelled without the interpolated numbers.  Constructing the
`Movement` runs pydantic's field validation: `expected_volume_default` is
declared `gt=0`, so a zero `abs(adjustment_quantity)` raises a
`ValidationError` at the `Movement(...)` call, before any write. -/
def create_imported_adjustment (st : St) (tank_id : String)
    (physical_level : ℚ) (inspection_date : Nat) (notes : Option String)
    (pdf_url : Option String) (new_id : String) (now : Nat) (today : Nat) :
    St × Except SvcError Movement :=
  match getTank st.tanks tank_id with
  | none => (st, .error .tankNotFound)
  | some tank =>
    if tank.capacity < physical_level then
      (st, .error .physicalLevelExceedsCapacity)
    else
      let system_level := get_starting_volume_for_tank st.movements tank
        (inspection_date + 1)
      let adjustment_quantity := calculate_adjustment system_level physical_level
      let base_notes := (notes).getD "Physical reading adjustment."
      let resolved_notes :=
        if adjustment_quantity < 0 then "(Loss) " ++ base_notes
        else "(Gain) " ++ base_notes
      if 0 < |adjustment_quantity| then
        let movement : Movement :=
          { type := MovementType.adjustment,
            tank_id_default := some tank_id,
            expected_volume_default := some |adjustment_quantity|,
            actual_volume := some adjustment_quantity,
            scheduled_date_default := some inspection_date,
            notes_default := some resolved_notes,
            pdf_url := pdf_url,
            id := new_id, created_at := now }
        let store := st.movements ++ [movement]
        let r := recalculate_tank_volumes store tank inspection_date none today
        let store := r.1
        let tanks :=
          if inspection_date ≤ today then
            update_tank_current_level st.tanks tank.id r.2
          else st.tanks
        refetchResult (store, tanks) new_id
      else (st, .error .invalidExpectedVolume)

/-- `MovementService.create_adjustment` delegates to
`create_imported_adjustment` with today's date and no PDF. -/
def create_adjustment (st : St) (tank_id : String) (physical_level : ℚ)
    (notes : Option String) (new_id : String) (now : Nat) (today : Nat) :
    St × Except SvcError Movement :=
  create_imported_adjustment st tank_id physical_level today notes none new_id
    now today

/-- `MovementService.delete`. -/
def delete (st : St) (movement_id : String) (today : Nat) : St × Bool :=
  match getMovement st.movements movement_id with
  | none => (st, false)
  | some movement =>
    let tank_id := movement.tank_id
    let target_tank_id := movement.target_tank_id
    let scheduled_date := movement.scheduled_date
    let movement_type := movement.type
    let store := st.movements.filter (fun m => !(m.id == movement_id))
    let str : List Movement × List Tank :=
      match tank_id, scheduled_date with
      | some tid, some d =>
        match getTank st.tanks tid with
        | some tank =>
          let r := recalculate_tank_volumes store tank d none today
          (r.1, update_tank_current_level st.tanks tank.id r.2)
        | none => (store, st.tanks)
      | _, _ => (store, st.tanks)
    let str :=
      if movement_type = MovementType.transfer then
        match target_tank_id, scheduled_date with
        | some tid, some d =>
          match getTank str.2 tid with
          | some target_tank =>
            let r := recalculate_tank_volumes str.1 target_tank d none today
            (r.1, update_tank_current_level str.2 target_tank.id r.2)
          | none => str
        | _, _ => str
      else str
    (⟨str.1, str.2⟩, true)

/-! ## Claim-side definitions

Definitions in this section are written from the specification's words, not
from the source; each is compared with the corresponding source-side
definition by a theorem below. -/

/-- The ordering claim C1 asserts for the replay sequence: effective
scheduled date ascending, ties broken by creation timestamp ascending. -/
def effThenCreatedAscB (a b : Movement) : Bool :=
  decide (effDateKey a < effDateKey b) ||
    (decide (effDateKey a = effDateKey b) && decide (a.created_at ≤ b.created_at))

/-- The replay sequence as claim C1 states it: the movements touching the
tank with effective scheduled date `≥ from_date`, minus the excluded
movement, sorted by effective date ascending with ties broken by creation
timestamp ascending. -/
def claimed_tank_movements (store : List Movement) (tank_id : String)
    (from_date : Nat) (exclude_movement_id : Option String) : List Movement :=
  sortB effThenCreatedAscB (store.filter (fun m =>
    tankMatchB tank_id m && dateGeB m.scheduled_date from_date &&
      (match exclude_movement_id with
       | some ex => !(m.id == ex)
       | none => true)))

/-- `startingVolume` as claim C2 states it: scan every movement touching the
tank with effective date `< before_date` (no fetch window), in
effective-date-descending order, and return the first recorded volume; with
no recorded volume, replay all of them from `initial_level`; with no prior
movements at all, return `initial_level`. -/
def claimed_starting_volume (store : List Movement) (tank : Tank)
    (before_date : Nat) : ℚ :=
  let movements := sortB effDateDescB (store.filter (fun m =>
    tankMatchB tank.id m && dateLtB m.scheduled_date before_date))
  if movements.isEmpty then tank.initial_level
  else
    match movements.findSome? (recordedVolume tank.id) with
    | some v => v
    | none => calculate_tank_level tank (sortB effDateAscB movements)
        (some (before_date - 1)) 0

/-- `effectiveVolume` as the spec words it: `actual_volume` when set, else
the effective expected volume, else 0. -/
def spec_effective_volume (m : Movement) : ℚ :=
  match m.actual_volume with
  | some v => v
  | none =>
    match m.expected_volume with
    | some v => v
    | none => 0

/-- `volumeDelta` as claim C9 states it, organised by movement type. -/
def spec_volume_delta (m : Movement) (tank_id : String) : ℚ :=
  match m.type with
  | MovementType.load =>
    if m.tank_id = some tank_id then spec_effective_volume m else 0
  | MovementType.discharge =>
    if m.tank_id = some tank_id then -spec_effective_volume m else 0
  | MovementType.transfer =>
    if m.tank_id = some tank_id then -spec_effective_volume m
    else if m.target_tank_id = some tank_id then spec_effective_volume m
    else 0
  | MovementType.adjustment =>
    if m.tank_id = some tank_id then spec_effective_volume m else 0

/-- Folding `apply_movement_to_level` over a movement list — the replay
performed by the recalculation engine (clamping at zero after every step). -/
def replay_levels (level : ℚ) (movements : List Movement) (tank_id : String) : ℚ :=
  movements.foldl (fun l m => apply_movement_to_level l m tank_id) level

/-- The pydantic `ge=0` constraints on stored volumes (`resulting_volume`,
`target_resulting_volume`). -/
def VolumesNonneg (store : List Movement) : Prop :=
  ∀ m ∈ store, (∀ v, m.resulting_volume = some v → 0 ≤ v) ∧
    (∀ v, m.target_resulting_volume = some v → 0 ≤ v)

/-- The store holds movements in creation order with strictly increasing
creation timestamps (uuid-keyed documents appended as they are created). -/
def CreatedOrdered (store : List Movement) : Prop :=
  store.Pairwise (fun a b => a.created_at < b.created_at)

/-- The business-rule failures enumerated by claim C6: tank / target /
movement not found, insufficient available volume, source equals target,
physical level exceeds capacity, movement already completed. -/
def isBusinessRuleError : SvcError → Bool
  | .tankNotFound => true
  | .targetTankNotFound => true
  | .sourceTankNotFound => true
  | .movementNotFound => true
  | .sameSourceAndTarget => true
  | .physicalLevelExceedsCapacity => true
  | .cannotEditCompleted => true
  | .alreadyCompleted => true
  | .insufficientFeedstock _ => true
  | _ => false

/-- The movements `calculate_tank_level` does not skip for a given cutoff
(scheduled on or before it, or carrying no date). -/
def notAfterB (cutoff : Nat) (m : Movement) : Bool :=
  match m.scheduled_date with
  | some d => decide (d ≤ cutoff)
  | none => true

/-- The summed signed deltas of a movement list for a tank. -/
def sumDeltas (movements : List Movement) (tank_id : String) : ℚ :=
  (movements.map (fun m => get_volume_delta m tank_id)).sum

/-! ### Example data

Concrete stores used by the counterexamples and witnesses below. -/

/-- A tank at initial level 10 (C10). -/
def c10_tank : Tank := { id := "A", capacity := 1000, initial_level := 10 }

/-- A discharge of 20 from tank A on day 1 (C10). -/
def c10_discharge : Movement :=
  { type := MovementType.discharge, tank_id_default := some "A",
    expected_volume_default := some 20, scheduled_date_default := some 1,
    id := "d", created_at := 1 }

/-- A load of 5 into tank A on day 2 (C10). -/
def c10_load : Movement :=
  { type := MovementType.load, tank_id_default := some "A",
    expected_volume_default := some 5, scheduled_date_default := some 2,
    id := "l", created_at := 2 }

/-- C1: movement of tank T, created first, default-scheduled on day 10. -/
def c1_mov_A : Movement :=
  { type := MovementType.load, tank_id_default := some "T",
    expected_volume_default := some 1, scheduled_date_default := some 10,
    id := "A", created_at := 1 }

/-- C1: movement of tank T, created second, default-scheduled on day 5 but
manually rescheduled to day 10 (so it ties with `c1_mov_A` on effective
date). -/
def c1_mov_B : Movement :=
  { type := MovementType.load, tank_id_default := some "T",
    expected_volume_default := some 2, scheduled_date_default := some 5,
    scheduled_date_manual := some 10, id := "B", created_at := 2 }

/-- C7: source tank with 50 bbl at the ledger epoch. -/
def c7_source : Tank :=
  { id := "S", capacity := 1000, initial_level := 50, current_level := 150 }

/-- C7: transfer target tank. -/
def c7_target : Tank :=
  { id := "T1", capacity := 1000, initial_level := 0, current_level := 0 }

/-- C7: an earlier-created load of 100 into the source on day 5. -/
def c7_load : Movement :=
  { type := MovementType.load, tank_id_default := some "S",
    expected_volume_default := some 100, scheduled_date_default := some 5,
    id := "L", created_at := 1 }

/-- C7: a same-day transfer request of 120 out of the source. -/
def c7_transfer : TransferCreate :=
  { source_tank_id := "S", targets := [{ tank_id := "T1", volume := 120 }],
    scheduled_date := 5 }

/-- C7: the stores before the transfer request. -/
def c7_st : St := { movements := [c7_load], tanks := [c7_source, c7_target] }

/-- C4: a tank with 100 bbl at the epoch. -/
def c4_tank : Tank :=
  { id := "T", capacity := 10000, initial_level := 100, current_level := 100 }

/-- C4: a load of 10 on day 5 whose recorded `resulting_volume` (999) has
drifted away from the replayed value (110). -/
def c4_load : Movement :=
  { type := MovementType.load, tank_id_default := some "T",
    expected_volume_default := some 10, scheduled_date_default := some 5,
    resulting_volume := some 999, id := "M1", created_at := 1 }

/-- C4: the stores before the adjustment. -/
def c4_st : St := { movements := [c4_load], tanks := [c4_tank] }

/-- C2: the tank. -/
def c2_tank : Tank :=
  { id := "T", capacity := 10000, initial_level := 0, current_level := 0 }

/-- C2: the oldest movement (day 1), the only one carrying a recorded
`resulting_volume`. -/
def c2_recorded : Movement :=
  { type := MovementType.load, tank_id_default := some "T",
    expected_volume_default := some 1, scheduled_date_default := some 1,
    resulting_volume := some 500, id := "r", created_at := 100 }

/-- C2: the `i`-th of 100 newer loads (days 101 down to 2), none recorded. -/
def c2_mov (i : Nat) : Movement :=
  { type := MovementType.load, tank_id_default := some "T",
    expected_volume_default := some 1, scheduled_date_default := some (101 - i),
    id := "m" ++ toString i, created_at := i }

/-- C2: a store of 101 movements of the tank; the 100-document fetch window
of `_get_starting_volume_for_tank` drops exactly `c2_recorded`. -/
def c2_store : List Movement := (List.range 100).map c2_mov ++ [c2_recorded]

/-- A movement with its two persisted running-volume fields cleared.  Two
movements with equal `stripRV` agree on every field the recalculation reads
(`_recalculate_tank_volumes` and its queries never read `resulting_volume` or
`target_resulting_volume` of the movements they replay; only the starting
volume scan does). -/
def stripRV (m : Movement) : Movement :=
  { m with resulting_volume := none, target_resulting_volume := none }

/-! ## Theorems -/

theorem mem_sortedInsert {le : α → α → Bool} {a x : α} {l : List α} :
    x ∈ sortedInsert le a l ↔ x = a ∨ x ∈ l := by
  induction l with
  | nil => simp [sortedInsert]
  | cons b t ih =>
    by_cases h : le a b = true
    · simp only [sortedInsert, h, if_true, List.mem_cons]
    · simp only [sortedInsert, h, if_false, Bool.false_eq_true, List.mem_cons, ih]
      tauto

theorem sortedInsert_perm (le : α → α → Bool) (a : α) (l : List α) :
    List.Perm (sortedInsert le a l) (a :: l) := by
  induction l with
  | nil => simp [sortedInsert]
  | cons b t ih =>
    by_cases h : le a b = true
    · simp [sortedInsert, h]
    · simp only [sortedInsert, h]
      exact List.Perm.trans (ih.cons b) (List.Perm.swap a b t)

theorem sortB_perm (le : α → α → Bool) (l : List α) : List.Perm (sortB le l) l := by
  induction l with
  | nil => simp [sortB]
  | cons a t ih =>
    exact List.Perm.trans (sortedInsert_perm le a (sortB le t)) (ih.cons a)

theorem mem_sortB {le : α → α → Bool} {l : List α} {x : α} :
    x ∈ sortB le l ↔ x ∈ l := (sortB_perm le l).mem_iff

theorem length_sortB (le : α → α → Bool) (l : List α) :
    (sortB le l).length = l.length := (sortB_perm le l).length_eq

theorem stableRel_le {le : α → α → Bool} {R : α → α → Prop} {a b : α}
    (h : stableRel le R a b) : le a b = true := by
  rcases h with ⟨h, _⟩ | ⟨h, _, _⟩ <;> exact h

theorem sortedInsert_stable {le : α → α → Bool} {R : α → α → Prop}
    (htrans : ∀ a b c, le a b = true → le b c = true → le a c = true)
    (htot : ∀ a b, le a b = true ∨ le b a = true)
    {a : α} {l : List α} (hl : l.Pairwise (stableRel le R))
    (ha : ∀ b ∈ l, R a b) :
    (sortedInsert le a l).Pairwise (stableRel le R) := by
  induction l with
  | nil => simp [sortedInsert]
  | cons b t ih =>
    rcases List.pairwise_cons.mp hl with ⟨hb, ht⟩
    by_cases hab : le a b = true
    · simp only [sortedInsert, hab, if_pos]
      refine List.pairwise_cons.mpr ⟨?_, hl⟩
      intro y hy
      have hay : le a y = true := by
        rcases List.mem_cons.mp hy with rfl | hy'
        · exact hab
        · exact htrans a b y hab (stableRel_le (hb y hy'))
      have hRy : R a y := ha y hy
      by_cases hya : le y a = true
      · exact Or.inr ⟨hay, hya, hRy⟩
      · exact Or.inl ⟨hay, hya⟩
    · simp only [sortedInsert, hab, if_neg, Bool.not_eq_true]
      refine List.pairwise_cons.mpr ⟨?_, ih ht (fun y hy => ha y (List.mem_cons_of_mem b hy))⟩
      intro y hy
      rcases mem_sortedInsert.mp hy with rfl | hy
      · have hba : le b y = true := (htot y b).resolve_left hab
        exact Or.inl ⟨hba, hab⟩
      · exact hb y hy

/-- Stability of `sortB`: if the input is `Pairwise R`, the output is pairwise
ordered by "`le`-strictly-below, or tied and originally `R`-ordered". -/
theorem sortB_stable {le : α → α → Bool} {R : α → α → Prop}
    (htrans : ∀ a b c, le a b = true → le b c = true → le a c = true)
    (htot : ∀ a b, le a b = true ∨ le b a = true)
    {l : List α} (hl : l.Pairwise R) :
    (sortB le l).Pairwise (stableRel le R) := by
  induction l with
  | nil => simp [sortB]
  | cons a t ih =>
    rcases List.pairwise_cons.mp hl with ⟨haR, ht⟩
    exact sortedInsert_stable htrans htot (ih ht)
      (fun b hb => haR b (mem_sortB.mp hb))

theorem sortB_pairwise {le : α → α → Bool}
    (htrans : ∀ a b c, le a b = true → le b c = true → le a c = true)
    (htot : ∀ a b, le a b = true ∨ le b a = true) (l : List α) :
    (sortB le l).Pairwise (fun a b => le a b = true) := by
  have hl : l.Pairwise (fun _ _ => True) := by
    induction l with
    | nil => exact List.Pairwise.nil
    | cons a t ih => exact List.pairwise_cons.mpr ⟨fun _ _ => trivial, ih⟩
  exact (sortB_stable htrans htot hl).imp stableRel_le

theorem map_sortedInsert {le : α → α → Bool} {le' : β → β → Bool} (f : α → β)
    (hf : ∀ a b, le' (f a) (f b) = le a b) (a : α) (l : List α) :
    sortedInsert le' (f a) (l.map f) = (sortedInsert le a l).map f := by
  induction l with
  | nil => simp [sortedInsert]
  | cons b t ih =>
    by_cases h : le a b = true
    · simp [sortedInsert, h, hf]
    · simp [sortedInsert, h, hf, ih]

theorem map_sortB {le : α → α → Bool} {le' : β → β → Bool} (f : α → β)
    (hf : ∀ a b, le' (f a) (f b) = le a b) (l : List α) :
    sortB le' (l.map f) = (sortB le l).map f := by
  induction l with
  | nil => simp [sortB]
  | cons a t ih => simp [sortB, ih, map_sortedInsert f hf]

/-- Two lists that are permutations of each other and both sorted by a common
asymmetric relation are equal. -/
theorem eq_of_perm_of_pairwise {S : α → α → Prop}
    (hasym : ∀ a b, S a b → S b a → False)
    {l₁ l₂ : List α} (hp : List.Perm l₁ l₂)
    (h₁ : l₁.Pairwise S) (h₂ : l₂.Pairwise S) : l₁ = l₂ := by
  have : IsAntisymm α S := ⟨fun a b hab hba => absurd hba (fun h => hasym a b hab h)⟩
  exact List.eq_of_perm_of_sorted hp h₁ h₂

/-- **C8.**  Override resolution: for every movement and every overridable
attribute (tank assignment, scheduled date, expected volume, notes, trade
number, trade line item, strategy, destination, equipment, discharge date,
base diff, quality-adjustment diff), the effective value equals the manual
value when the manual value is non-null, and the default value otherwise;
each accessor reads only the movement's stored field pair. -/
theorem effective_value_resolution (m : Movement) :
    (∀ v, m.tank_id_manual = some v → m.tank_id = some v) ∧
    (m.tank_id_manual = none → m.tank_id = m.tank_id_default) ∧
    (∀ v, m.scheduled_date_manual = some v → m.scheduled_date = some v) ∧
    (m.scheduled_date_manual = none → m.scheduled_date = m.scheduled_date_default) ∧
    (∀ v, m.expected_volume_manual = some v → m.expected_volume = some v) ∧
    (m.expected_volume_manual = none → m.expected_volume = m.expected_volume_default) ∧
    (∀ v, m.notes_manual = some v → m.notes = some v) ∧
    (m.notes_manual = none → m.notes = m.notes_default) ∧
    (∀ v, m.trade_number_manual = some v → m.trade_number = some v) ∧
    (m.trade_number_manual = none → m.trade_number = m.trade_number_default) ∧
    (∀ v, m.trade_line_item_manual = some v → m.trade_line_item = some v) ∧
    (m.trade_line_item_manual = none → m.trade_line_item = m.trade_line_item_default) ∧
    (∀ v, m.strategy_manual = some v → m.strategy = some v) ∧
    (m.strategy_manual = none → m.strategy = m.strategy_default) ∧
    (∀ v, m.destination_manual = some v → m.destination = some v) ∧
    (m.destination_manual = none → m.destination = m.destination_default) ∧
    (∀ v, m.equipment_manual = some v → m.equipment = some v) ∧
    (m.equipment_manual = none → m.equipment = m.equipment_default) ∧
    (∀ v, m.discharge_date_manual = some v → m.discharge_date = some v) ∧
    (m.discharge_date_manual = none → m.discharge_date = m.discharge_date_default) ∧
    (∀ v, m.base_diff_manual = some v → m.base_diff = some v) ∧
    (m.base_diff_manual = none → m.base_diff = m.base_diff_default) ∧
    (∀ v, m.quality_adj_diff_manual = some v → m.quality_adj_diff = some v) ∧
    (m.quality_adj_diff_manual = none → m.quality_adj_diff = m.quality_adj_diff_default) := by
  refine ⟨?_, ?_, ?_, ?_, ?_, ?_, ?_, ?_, ?_, ?_, ?_, ?_, ?_, ?_, ?_, ?_, ?_,
    ?_, ?_, ?_, ?_, ?_, ?_, ?_⟩ <;>
    first
    | (intro v h
       simp only [Movement.tank_id, Movement.scheduled_date,
         Movement.expected_volume, Movement.notes, Movement.trade_number,
         Movement.trade_line_item, Movement.strategy, Movement.destination,
         Movement.equipment, Movement.discharge_date, Movement.base_diff,
         Movement.quality_adj_diff, h])
    | (intro h
       simp only [Movement.tank_id, Movement.scheduled_date,
         Movement.expected_volume, Movement.notes, Movement.trade_number,
         Movement.trade_line_item, Movement.strategy, Movement.destination,
         Movement.equipment, Movement.discharge_date, Movement.base_diff,
         Movement.quality_adj_diff, h])

/-- Witness for C8 at a concrete movement: a manual override wins where set,
the default applies where not. -/
theorem effective_value_resolution_witness :
    ({ type := MovementType.load, tank_id_default := some "A",
       tank_id_manual := some "B", notes_default := some "n" } : Movement).tank_id
        = some "B" ∧
    ({ type := MovementType.load, tank_id_default := some "A",
       tank_id_manual := some "B", notes_default := some "n" } : Movement).notes
        = some "n" := by
  have h := effective_value_resolution
    { type := MovementType.load, tank_id_default := some "A",
      tank_id_manual := some "B", notes_default := some "n" }
  exact ⟨h.1 "B" rfl, (h.2.2.2.2.2.2.2.1) rfl⟩

/-- **C9.**  The signed volume delta of a movement for a tank is exactly the
spec's case analysis: `+effectiveVolume` for a LOAD or ADJUSTMENT whose
effective tank matches, `-effectiveVolume` for a matching DISCHARGE,
`-effectiveVolume` for a TRANSFER out of the tank and `+effectiveVolume`
for a TRANSFER into it, and `0` in every other combination, with
`effectiveVolume = actual_volume` if set, else the effective expected
volume, else 0. -/
theorem volume_delta_matches_spec (m : Movement) (tank_id : String) :
    get_volume_delta m tank_id = spec_volume_delta m tank_id ∧
    get_effective_volume m = spec_effective_volume m := by
  have heff : get_effective_volume m = spec_effective_volume m := by
    unfold get_effective_volume spec_effective_volume
    cases m.actual_volume <;> cases h : m.expected_volume <;> simp [h]
  refine ⟨?_, heff⟩
  unfold get_volume_delta spec_volume_delta
  rw [heff]
  cases htype : m.type <;>
    by_cases h1 : m.tank_id = some tank_id <;>
    by_cases h2 : m.target_tank_id = some tank_id <;>
    simp [htype, h1, h2]

theorem calculate_level_step_eq (tank_id : String) (level : ℚ) (m : Movement) :
    calculate_level_step tank_id level m = level + get_volume_delta m tank_id := by
  unfold calculate_level_step get_volume_delta
  cases htype : m.type <;>
    by_cases h1 : m.tank_id = some tank_id <;>
    by_cases h2 : m.target_tank_id = some tank_id <;>
    simp [htype, h1, h2, sub_eq_add_neg]

theorem apply_movement_to_level_eq (level : ℚ) (m : Movement) (tank_id : String) :
    apply_movement_to_level level m tank_id =
      max 0 (level + get_volume_delta m tank_id) := by
  unfold apply_movement_to_level get_volume_delta
  cases htype : m.type <;>
    by_cases h1 : m.tank_id = some tank_id <;>
    by_cases h2 : m.target_tank_id = some tank_id <;>
    simp [htype, h1, h2, sub_eq_add_neg]

theorem apply_movement_to_level_nonneg (level : ℚ) (m : Movement) (tank_id : String) :
    0 ≤ apply_movement_to_level level m tank_id := by
  rw [apply_movement_to_level_eq]
  exact le_max_left 0 _

/-- The skip-test loop of `calculate_tank_level` equals the plain step fold
over the non-skipped movements. -/
theorem calculate_tank_level_eq_filter (tank : Tank) (movements : List Movement)
    (as_of : Option Nat) (today : Nat) :
    calculate_tank_level tank movements as_of today =
      max 0 ((movements.filter (notAfterB (as_of.getD today))).foldl
        (calculate_level_step tank.id) tank.initial_level) := by
  unfold calculate_tank_level
  generalize tank.initial_level = init
  induction movements generalizing init with
  | nil => rfl
  | cons m t ih =>
    by_cases h : notAfterB (as_of.getD today) m = true
    · have : (m :: t).filter (notAfterB (as_of.getD today)) =
          m :: t.filter (notAfterB (as_of.getD today)) := List.filter_cons_of_pos h
      rw [this]
      unfold notAfterB at h
      cases hd : m.scheduled_date with
      | none => simp only [List.foldl, hd]; exact ih _
      | some d =>
        rw [hd] at h
        simp only [decide_eq_true_eq] at h
        simp only [List.foldl, hd, if_neg (not_lt.mpr h)]
        exact ih _
    · have : (m :: t).filter (notAfterB (as_of.getD today)) =
          t.filter (notAfterB (as_of.getD today)) := List.filter_cons_of_neg h
      rw [this]
      unfold notAfterB at h
      cases hd : m.scheduled_date with
      | none => simp [hd] at h
      | some d =>
        rw [hd] at h
        simp only [decide_eq_true_eq, Bool.not_eq_true] at h
        have hlt : as_of.getD today < d := by
          by_contra hc
          exact absurd (decide_eq_true (not_lt.mp hc)) (by simp [h])
        simp only [List.foldl, hd, if_pos hlt]
        exact ih init

theorem foldl_step_eq_sum (tank_id : String) (movements : List Movement)
    (init : ℚ) :
    movements.foldl (calculate_level_step tank_id) init =
      init + sumDeltas movements tank_id := by
  induction movements generalizing init with
  | nil => simp [sumDeltas]
  | cons m t ih =>
    simp only [List.foldl, calculate_level_step_eq, ih, sumDeltas, List.map,
      List.sum_cons]
    ring

theorem replay_levels_nil (level : ℚ) (tank_id : String) :
    replay_levels level [] tank_id = level := rfl

theorem replay_levels_cons (level : ℚ) (m : Movement) (t : List Movement)
    (tank_id : String) :
    replay_levels level (m :: t) tank_id =
      replay_levels (apply_movement_to_level level m tank_id) t tank_id := rfl

theorem replay_levels_nonneg (level : ℚ) (movements : List Movement)
    (tank_id : String) (h : 0 ≤ level) :
    0 ≤ replay_levels level movements tank_id := by
  induction movements generalizing level with
  | nil => exact h
  | cons m t ih => exact ih _ (apply_movement_to_level_nonneg level m tank_id)

theorem replay_levels_ge_sum (level : ℚ) (movements : List Movement)
    (tank_id : String) :
    level + sumDeltas movements tank_id ≤ replay_levels level movements tank_id := by
  induction movements generalizing level with
  | nil => simp [sumDeltas, replay_levels]
  | cons m t ih =>
    rw [replay_levels_cons]
    refine le_trans ?_ (ih (apply_movement_to_level level m tank_id))
    have h1 : level + get_volume_delta m tank_id ≤
        apply_movement_to_level level m tank_id := by
      rw [apply_movement_to_level_eq]
      exact le_max_right 0 _
    have : sumDeltas (m :: t) tank_id =
        get_volume_delta m tank_id + sumDeltas t tank_id := by
      simp [sumDeltas]
    rw [this]
    linarith

theorem replay_levels_eq_sum_of_prefix_nonneg (level : ℚ)
    (movements : List Movement) (tank_id : String)
    (h : ∀ n, 0 ≤ level + sumDeltas (movements.take n) tank_id) :
    replay_levels level movements tank_id = level + sumDeltas movements tank_id := by
  induction movements generalizing level with
  | nil => simp [sumDeltas, replay_levels]
  | cons m t ih =>
    have h1 : 0 ≤ level + get_volume_delta m tank_id := by
      have := h 1
      simpa [sumDeltas] using this
    have happ : apply_movement_to_level level m tank_id =
        level + get_volume_delta m tank_id := by
      rw [apply_movement_to_level_eq]
      exact max_eq_right h1
    rw [replay_levels_cons, happ, ih]
    · have : sumDeltas (m :: t) tank_id =
          get_volume_delta m tank_id + sumDeltas t tank_id := by
        simp [sumDeltas]
      rw [this]; ring
    · intro n
      have := h (n + 1)
      simp only [List.take, sumDeltas, List.map, List.sum_cons] at this ⊢
      linarith

/-- **C10, counterexample.**  The two replay implementations disagree: from
level 10, a discharge of 20 followed by a load of 5 yields 0 under the
from-scratch replay (`calculate_tank_level`, which clamps only at the end)
but 5 under the per-movement-clamping fold of `apply_movement_to_level`. -/
theorem replay_disagreement :
    calculate_tank_level c10_tank [c10_discharge, c10_load] (some 3) 3 = 0 ∧
    replay_levels c10_tank.initial_level [c10_discharge, c10_load] c10_tank.id = 5 ∧
    (0 : ℚ) ≠ 5 := by
  refine ⟨?_, ?_, by norm_num⟩
  · simp only [calculate_tank_level, calculate_level_step, get_effective_volume,
      Movement.scheduled_date, Movement.tank_id, Movement.expected_volume,
      c10_tank, c10_discharge, c10_load, List.foldl, reduceCtorEq, reduceIte]
    norm_num
  · simp only [replay_levels, apply_movement_to_level, get_effective_volume,
      Movement.scheduled_date, Movement.tank_id, Movement.expected_volume,
      c10_tank, c10_discharge, c10_load, List.foldl, reduceCtorEq, reduceIte]
    norm_num

/-- **C10, amended.**  The per-movement-clamping fold dominates the
from-scratch replay: for a nonnegative starting level, `calculate_tank_level`
is at most the fold of `apply_movement_to_level` over the non-skipped
movements, with equality whenever no intermediate unclamped running sum is
negative. -/
theorem clamped_replay_dominates (tank : Tank) (movements : List Movement)
    (as_of : Option Nat) (today : Nat) (h0 : 0 ≤ tank.initial_level) :
    calculate_tank_level tank movements as_of today ≤
      replay_levels tank.initial_level
        (movements.filter (notAfterB (as_of.getD today))) tank.id ∧
    ((∀ n, 0 ≤ tank.initial_level +
        sumDeltas ((movements.filter (notAfterB (as_of.getD today))).take n)
          tank.id) →
      calculate_tank_level tank movements as_of today =
        replay_levels tank.initial_level
          (movements.filter (notAfterB (as_of.getD today))) tank.id) := by
  rw [calculate_tank_level_eq_filter, foldl_step_eq_sum]
  set l := movements.filter (notAfterB (as_of.getD today)) with hl
  constructor
  · exact max_le
      (replay_levels_nonneg tank.initial_level l tank.id h0)
      (replay_levels_ge_sum tank.initial_level l tank.id)
  · intro h
    rw [replay_levels_eq_sum_of_prefix_nonneg tank.initial_level l tank.id h]
    refine max_eq_right ?_
    have := h l.length
    simpa [List.take_of_length_le (le_refl l.length)] using this

/-- Witness for C10's amended claim: with no negative intermediate sum the
two replays agree (tank at 10, single load of 5, both give 15). -/
theorem clamped_replay_dominates_witness :
    calculate_tank_level c10_tank [c10_load] (some 3) 3 =
      replay_levels c10_tank.initial_level
        ([c10_load].filter (notAfterB ((some 3 : Option Nat).getD 3)))
        c10_tank.id := by
  refine (clamped_replay_dominates c10_tank [c10_load] (some 3) 3 (by norm_num [c10_tank])).2 ?_
  have hfil : [c10_load].filter (notAfterB ((some 3 : Option Nat).getD 3)) = [c10_load] := by
    simp [notAfterB, c10_load, Movement.scheduled_date]
  rw [hfil]
  intro n
  cases n with
  | zero =>
    norm_num [sumDeltas, c10_tank]
  | succ k =>
    have ht : ([c10_load]).take (k + 1) = [c10_load] := by
      simp
    rw [ht]
    norm_num [sumDeltas, get_volume_delta, get_effective_volume, c10_tank,
      c10_load, Movement.tank_id, Movement.expected_volume]

theorem roundHalfEven_nonneg {q : ℚ} (h : 0 ≤ q) : 0 ≤ roundHalfEven q := by
  have hf : (0:ℤ) ≤ ⌊q⌋ := Int.floor_nonneg.mpr h
  simp only [roundHalfEven]
  split_ifs <;> omega

theorem round2_nonneg {q : ℚ} (h : 0 ≤ q) : 0 ≤ round2 q := by
  unfold round2
  have h1 : (0:ℤ) ≤ roundHalfEven (q * 100) :=
    roundHalfEven_nonneg (by positivity)
  have h2 : (0:ℚ) ≤ (roundHalfEven (q * 100) : ℚ) := by exact_mod_cast h1
  positivity

theorem calculate_tank_level_nonneg (tank : Tank) (movements : List Movement)
    (as_of : Option Nat) (today : Nat) :
    0 ≤ calculate_tank_level tank movements as_of today := by
  unfold calculate_tank_level
  exact le_max_left 0 _

theorem recordedVolume_nonneg {store : List Movement} (hWF : VolumesNonneg store)
    {tank_id : String} {m : Movement} (hm : m ∈ store) {v : ℚ}
    (h : recordedVolume tank_id m = some v) : 0 ≤ v := by
  rcases hWF m hm with ⟨h1, h2⟩
  unfold recordedVolume at h
  split_ifs at h
  · exact h1 v h
  · exact h2 v h

theorem get_starting_volume_nonneg (store : List Movement) (tank : Tank)
    (before_date : Nat) (hWF : VolumesNonneg store) (h0 : 0 ≤ tank.initial_level) :
    0 ≤ get_starting_volume_for_tank store tank before_date := by
  simp only [get_starting_volume_for_tank]
  split
  · exact h0
  · split
    · next v hfind =>
      obtain ⟨m, hm, hrec⟩ := List.exists_of_findSome?_eq_some hfind
      have hmstore : m ∈ store :=
        List.mem_of_mem_filter (mem_sortB.mp (List.mem_of_mem_take
          (List.mem_of_mem_filter (mem_sortB.mp hm))))
      exact recordedVolume_nonneg hWF hmstore hrec
    · exact calculate_tank_level_nonneg _ _ _ _

theorem updateResultingVolume_wf {store : List Movement}
    (hWF : VolumesNonneg store) {id : String} {v : ℚ} (hv : 0 ≤ v) :
    VolumesNonneg (updateResultingVolume store id v) := by
  intro m hm
  rcases List.mem_map.mp hm with ⟨m₀, hm₀, hpat⟩
  rcases hWF m₀ hm₀ with ⟨h1, h2⟩
  by_cases h : m₀.id = id
  · rw [if_pos h] at hpat
    subst hpat
    refine ⟨?_, ?_⟩
    · intro w hw
      have hvw : some v = some w := hw
      cases hvw
      exact hv
    · intro w hw
      exact h2 w hw
  · rw [if_neg h] at hpat
    subst hpat
    exact ⟨h1, h2⟩

theorem updateTargetResultingVolume_wf {store : List Movement}
    (hWF : VolumesNonneg store) {id : String} {v : ℚ} (hv : 0 ≤ v) :
    VolumesNonneg (updateTargetResultingVolume store id v) := by
  intro m hm
  rcases List.mem_map.mp hm with ⟨m₀, hm₀, hpat⟩
  rcases hWF m₀ hm₀ with ⟨h1, h2⟩
  by_cases h : m₀.id = id
  · rw [if_pos h] at hpat
    subst hpat
    refine ⟨?_, ?_⟩
    · intro w hw
      exact h1 w hw
    · intro w hw
      have hvw : some v = some w := hw
      cases hvw
      exact hv
  · rw [if_neg h] at hpat
    subst hpat
    exact ⟨h1, h2⟩

theorem recalcStep_invariant (tank : Tank) (today : Nat)
    (st : List Movement × ℚ × ℚ) (m : Movement)
    (h1 : VolumesNonneg st.1) (h2 : 0 ≤ st.2.2) :
    VolumesNonneg (recalcStep tank today st m).1 ∧
      0 ≤ (recalcStep tank today st m).2.1 ∧
      0 ≤ (recalcStep tank today st m).2.2 := by
  have happ : 0 ≤ apply_movement_to_level st.2.1 m tank.id :=
    apply_movement_to_level_nonneg _ _ _
  unfold recalcStep
  refine ⟨?_, happ, ?_⟩
  · dsimp only
    split_ifs
    · exact updateResultingVolume_wf h1 (round2_nonneg happ)
    · exact updateTargetResultingVolume_wf h1 (round2_nonneg happ)
    · exact h1
  · dsimp only
    split
    · split_ifs
      · exact happ
      · exact h2
    · exact h2

theorem recalc_fold_invariant (tank : Tank) (today : Nat) (ms : List Movement) :
    ∀ (st : List Movement × ℚ × ℚ), VolumesNonneg st.1 → 0 ≤ st.2.2 →
      VolumesNonneg (ms.foldl (recalcStep tank today) st).1 ∧
        0 ≤ (ms.foldl (recalcStep tank today) st).2.2 := by
  induction ms with
  | nil => exact fun st ha hb => ⟨ha, hb⟩
  | cons m t ih =>
    intro st ha hb
    have h := recalcStep_invariant tank today st m ha hb
    exact ih (recalcStep tank today st m) h.1 h.2.2

/-- **C3.**  Clamping: applying a movement is exactly
`max(0, level + volumeDelta)`, so no level is ever negative, and the whole
recalculation preserves nonnegativity: with nonnegative stored volumes and a
nonnegative initial level, the returned level-as-of-today is nonnegative and
every persisted `resulting_volume` / `target_resulting_volume` stays
nonnegative, even when the summed deltas would be negative. -/
theorem apply_clamps_and_recalc_nonneg :
    (∀ (level : ℚ) (m : Movement) (tank_id : String),
      apply_movement_to_level level m tank_id =
        max 0 (level + get_volume_delta m tank_id)) ∧
    ∀ (store : List Movement) (tank : Tank) (from_date : Nat)
      (exclude_movement_id : Option String) (today : Nat),
      VolumesNonneg store → 0 ≤ tank.initial_level →
      0 ≤ (recalculate_tank_volumes store tank from_date exclude_movement_id
            today).2 ∧
      VolumesNonneg (recalculate_tank_volumes store tank from_date
            exclude_movement_id today).1 := by
  refine ⟨apply_movement_to_level_eq, ?_⟩
  intro store tank from_date exclude_movement_id today hWF h0
  have hs := get_starting_volume_nonneg store tank from_date hWF h0
  have h := recalc_fold_invariant tank today
    (get_tank_movements_from_date store tank.id from_date exclude_movement_id)
    (store, get_starting_volume_for_tank store tank from_date,
      get_starting_volume_for_tank store tank from_date) hWF hs
  exact ⟨round2_nonneg h.2, h.1⟩

/-- Witness for C3 at a concrete input: a recalculation over a singleton
store yields a nonnegative level. -/
theorem apply_clamps_and_recalc_nonneg_witness :
    0 ≤ (recalculate_tank_volumes [c10_discharge]
      { id := "A", capacity := 1000, initial_level := 0 } 1 none 1).2 := by
  have hWF : VolumesNonneg [c10_discharge] := by
    intro m hm
    rw [List.mem_singleton] at hm
    subst hm
    constructor
    · intro v hv
      simp [c10_discharge] at hv
    · intro v hv
      simp [c10_discharge] at hv
  exact (apply_clamps_and_recalc_nonneg.2 [c10_discharge]
    { id := "A", capacity := 1000, initial_level := 0 } 1 none 1 hWF
    (le_refl 0)).1

theorem optDateLeB_trans (a b c : Option Nat) (hab : optDateLeB a b = true)
    (hbc : optDateLeB b c = true) : optDateLeB a c = true := by
  cases a <;> cases b <;> cases c <;>
    first
      | (simp_all [optDateLeB]; omega)
      | simp_all [optDateLeB]

theorem optDateLeB_total (a b : Option Nat) :
    optDateLeB a b = true ∨ optDateLeB b a = true := by
  cases a <;> cases b <;>
    first
      | (simp_all [optDateLeB]; omega)
      | simp_all [optDateLeB]

theorem defDateAscB_trans (a b c : Movement) (hab : defDateAscB a b = true)
    (hbc : defDateAscB b c = true) : defDateAscB a c = true :=
  optDateLeB_trans _ _ _ hab hbc

theorem defDateAscB_total (a b : Movement) :
    defDateAscB a b = true ∨ defDateAscB b a = true :=
  optDateLeB_total _ _

theorem defDateDescB_trans (a b c : Movement) (hab : defDateDescB a b = true)
    (hbc : defDateDescB b c = true) : defDateDescB a c = true :=
  optDateLeB_trans _ _ _ hbc hab

theorem defDateDescB_total (a b : Movement) :
    defDateDescB a b = true ∨ defDateDescB b a = true :=
  (optDateLeB_total _ _).symm

theorem effDateAscB_trans (a b c : Movement) (hab : effDateAscB a b = true)
    (hbc : effDateAscB b c = true) : effDateAscB a c = true := by
  simp only [effDateAscB, decide_eq_true_eq] at *
  omega

theorem effDateAscB_total (a b : Movement) :
    effDateAscB a b = true ∨ effDateAscB b a = true := by
  simp only [effDateAscB, decide_eq_true_eq]
  omega

theorem effDateDescB_trans (a b c : Movement) (hab : effDateDescB a b = true)
    (hbc : effDateDescB b c = true) : effDateDescB a c = true := by
  simp only [effDateDescB, decide_eq_true_eq] at *
  omega

theorem effDateDescB_total (a b : Movement) :
    effDateDescB a b = true ∨ effDateDescB b a = true := by
  simp only [effDateDescB, decide_eq_true_eq]
  omega

theorem createdAscB_trans (a b c : Movement) (hab : createdAscB a b = true)
    (hbc : createdAscB b c = true) : createdAscB a c = true := by
  simp only [createdAscB, decide_eq_true_eq] at *
  omega

theorem createdAscB_total (a b : Movement) :
    createdAscB a b = true ∨ createdAscB b a = true := by
  simp only [createdAscB, decide_eq_true_eq]
  omega

/-- An effective date bound implies the over-fetching `OR` condition of the
queries (on either the default or the manual date field). -/
theorem effGe_imp_query_or {m : Movement} {d : Nat}
    (h : dateGeB m.scheduled_date d = true) :
    (dateGeB m.scheduled_date_default d || dateGeB m.scheduled_date_manual d)
      = true := by
  unfold Movement.scheduled_date at h
  rw [Bool.or_eq_true]
  cases hman : m.scheduled_date_manual with
  | some v =>
    rw [hman] at h
    exact Or.inr h
  | none =>
    rw [hman] at h
    exact Or.inl h

/-- **C1, counterexample.**  The replay sequence is not ordered by
(effective date, creation timestamp): with `c1_mov_A` created first
(default date 10) and `c1_mov_B` created second (default date 5, manually
moved to day 10), the code replays `[B, A]` — the query's
`ORDER BY scheduled_date_default` puts B first and the stable effective-date
sort keeps it there — while the claimed order is `[A, B]`. -/
theorem replay_order_counterexample :
    get_tank_movements_from_date [c1_mov_A, c1_mov_B] "T" 10 none =
      [c1_mov_B, c1_mov_A] ∧
    claimed_tank_movements [c1_mov_A, c1_mov_B] "T" 10 none =
      [c1_mov_A, c1_mov_B] ∧
    get_tank_movements_from_date [c1_mov_A, c1_mov_B] "T" 10 none ≠
      claimed_tank_movements [c1_mov_A, c1_mov_B] "T" 10 none := by
  refine ⟨by decide, by decide, by decide⟩

/-- **C1, amended.**  On a creation-ordered store, the replay sequence
consists of exactly the movements whose default, manual, or target tank
reference matches the tank and whose effective scheduled date is
`≥ fromDate` (minus the excluded movement), sorted by effective scheduled
date ascending — but ties are broken by the query's sort key, the default
scheduled date, and only then by creation order. -/
theorem replay_order_characterization (store : List Movement)
    (tank_id : String) (from_date : Nat) (exclude_movement_id : Option String)
    (hord : CreatedOrdered store) :
    List.Perm
      (get_tank_movements_from_date store tank_id from_date exclude_movement_id)
      (store.filter (fun m =>
        tankMatchB tank_id m && dateGeB m.scheduled_date from_date &&
          (match exclude_movement_id with
           | some ex => !(m.id == ex)
           | none => true))) ∧
    (get_tank_movements_from_date store tank_id from_date
        exclude_movement_id).Pairwise
      (stableRel effDateAscB
        (stableRel defDateAscB (fun a b => a.created_at < b.created_at))) := by
  constructor
  · unfold get_tank_movements_from_date
    have base : ∀ (l₁ l₂ : List Movement), List.Perm l₁ l₂ →
        List.Perm (sortB effDateAscB l₁) l₂ :=
      fun l₁ l₂ h => (sortB_perm effDateAscB l₁).trans h
    cases exclude_movement_id with
    | none =>
      apply base
      refine ((sortB_perm defDateAscB _).filter _).trans ?_
      rw [List.filter_filter]
      apply List.Perm.of_eq
      apply List.filter_congr
      intro m _
      cases hge : dateGeB m.scheduled_date from_date
      · simp [hge]
      · simp [hge, effGe_imp_query_or hge]
    | some ex =>
      apply base
      refine (List.Perm.filter _ ((sortB_perm defDateAscB _).filter _)).trans ?_
      rw [List.filter_filter, List.filter_filter]
      apply List.Perm.of_eq
      apply List.filter_congr
      intro m _
      cases hge : dateGeB m.scheduled_date from_date
      · simp [hge]
      · cases hex : (!(m.id == ex)) <;>
          simp [hge, hex, effGe_imp_query_or hge]
  · unfold get_tank_movements_from_date
    apply sortB_stable effDateAscB_trans effDateAscB_total
    apply List.Pairwise.filter
    have hinner : (sortB defDateAscB (store.filter (fun m =>
        tankMatchB tank_id m &&
          (dateGeB m.scheduled_date_default from_date ||
            dateGeB m.scheduled_date_manual from_date)))).Pairwise
        (stableRel defDateAscB (fun a b => a.created_at < b.created_at)) :=
      sortB_stable defDateAscB_trans defDateAscB_total (hord.filter _)
    cases exclude_movement_id with
    | none => exact hinner
    | some ex => exact hinner.filter _

/-- Witness for C1's amended claim at the two-movement store of the
counterexample. -/
theorem replay_order_characterization_witness :
    (get_tank_movements_from_date [c1_mov_A, c1_mov_B] "T" 10 none).Pairwise
      (stableRel effDateAscB
        (stableRel defDateAscB (fun a b => a.created_at < b.created_at))) := by
  refine (replay_order_characterization [c1_mov_A, c1_mov_B] "T" 10 none ?_).2
  unfold CreatedOrdered
  refine List.pairwise_cons.mpr ⟨?_, List.pairwise_singleton _ _⟩
  intro b hb
  rw [List.mem_singleton] at hb
  subst hb
  decide

/-- The per-target loop of `create_transfer` can only fail with a missing
target tank. -/
theorem create_transfer_go_err (tanks : List Tank) (source_tank_id : String)
    (scheduled_date : Nat) (notes : Option String) (newIds : Nat → String)
    (now : Nat) :
    ∀ (targets : List TransferTarget) (k : Nat) (store created : List Movement)
      (running : ℚ),
      (create_transfer_go tanks source_tank_id scheduled_date notes newIds now
          k store created running targets).2.2.2 = none ∨
      (create_transfer_go tanks source_tank_id scheduled_date notes newIds now
          k store created running targets).2.2.2 =
        some SvcError.targetTankNotFound := by
  intro targets
  induction targets with
  | nil => intro k store created running; left; rfl
  | cons target rest ih =>
    intro k store created running
    unfold create_transfer_go
    cases getTank tanks target.tank_id with
    | none => right; rfl
    | some target_tank => exact ih _ _ _ _

/-- **C7, counterexample.**  A same-day load is counted by
`availableVolume` (`_get_available_volume_for_movement`) but not by the
validation of `create_transfer`, which (for a non-future date) checks the
plain starting volume: requesting 120 when the starting volume is 50 but the
same-day-adjusted available volume is 150 raises the insufficient-feedstock
error anyway (and writes nothing). -/
theorem transfer_validation_counterexample :
    (create_transfer c7_st c7_transfer (fun _ => "N") 10 5).2 =
      Except.error (SvcError.insufficientFeedstock 50) ∧
    (c7_transfer.targets.map TransferTarget.volume).sum ≤
      get_available_volume_for_movement c7_st.movements c7_source
        c7_transfer.scheduled_date none ∧
    (create_transfer c7_st c7_transfer (fun _ => "N") 10 5).1 = c7_st := by
  refine ⟨?_, ?_, ?_⟩
  · simp +decide [create_transfer, c7_st, c7_transfer, getTank, c7_source,
      c7_target, get_starting_volume_for_tank, sortB, sortedInsert, tankMatchB,
      dateEqB, dateLtB, optDateLeB, defDateDescB, createdAscB, effDateKey,
      effDateDescB, Movement.scheduled_date, Movement.tank_id, recordedVolume,
      c7_load]
  · have h : get_available_volume_for_movement c7_st.movements c7_source
        c7_transfer.scheduled_date none = 150 := by
      simp +decide [get_available_volume_for_movement,
        get_starting_volume_for_tank, sortB, sortedInsert, tankMatchB, dateEqB,
        dateLtB, optDateLeB, defDateDescB, createdAscB, effDateKey,
        effDateDescB, Movement.scheduled_date, Movement.tank_id,
        Movement.expected_volume, recordedVolume, apply_movement_to_level,
        get_effective_volume, c7_load, c7_source, c7_st, c7_transfer]
      norm_num
    rw [h]
    norm_num [c7_transfer]
  · simp +decide [create_transfer, c7_st, c7_transfer, getTank, c7_source,
      c7_target, get_starting_volume_for_tank, sortB, sortedInsert, tankMatchB,
      dateEqB, dateLtB, optDateLeB, defDateDescB, createdAscB, effDateKey,
      effDateDescB, Movement.scheduled_date, Movement.tank_id, recordedVolume,
      c7_load]

/-- **C7, amended.**  `create_transfer` fails first on a missing source tank,
then on an empty target list, then on a target equal to the source; its
insufficient-volume error is raised if and only if the total requested volume
exceeds the *starting* volume of the source on the scheduled date (the
source's `current_level` for a future date) — the same-day adjustment of
`availableVolume` is not consulted.  A missing target tank fails inside the
per-target loop, after earlier targets were already written. -/
theorem create_transfer_validation (st : St) (transfer_data : TransferCreate)
    (newIds : Nat → String) (now today : Nat) :
    (getTank st.tanks transfer_data.source_tank_id = none →
      create_transfer st transfer_data newIds now today =
        (st, .error .sourceTankNotFound)) ∧
    ∀ source_tank,
      getTank st.tanks transfer_data.source_tank_id = some source_tank →
      (transfer_data.targets = [] →
        create_transfer st transfer_data newIds now today =
          (st, .error .atLeastOneTargetRequired)) ∧
      (transfer_data.source_tank_id ∈
          transfer_data.targets.map TransferTarget.tank_id →
        transfer_data.targets ≠ [] →
        create_transfer st transfer_data newIds now today =
          (st, .error .sameSourceAndTarget)) ∧
      (transfer_data.targets ≠ [] →
        transfer_data.source_tank_id ∉
          transfer_data.targets.map TransferTarget.tank_id →
        ((if today < transfer_data.scheduled_date then source_tank.current_level
            else get_starting_volume_for_tank st.movements source_tank
              transfer_data.scheduled_date) <
            (transfer_data.targets.map TransferTarget.volume).sum →
          create_transfer st transfer_data newIds now today =
            (st, .error (.insufficientFeedstock
              (if today < transfer_data.scheduled_date then
                source_tank.current_level
              else get_starting_volume_for_tank st.movements source_tank
                transfer_data.scheduled_date)))) ∧
        ((∃ a, (create_transfer st transfer_data newIds now today).2 =
            .error (.insufficientFeedstock a)) ↔
          (if today < transfer_data.scheduled_date then source_tank.current_level
            else get_starting_volume_for_tank st.movements source_tank
              transfer_data.scheduled_date) <
            (transfer_data.targets.map TransferTarget.volume).sum)) := by
  refine ⟨?_, ?_⟩
  · intro h
    unfold create_transfer
    rw [h]
  · intro source_tank h
    refine ⟨?_, ?_, ?_⟩
    · intro hnil
      unfold create_transfer
      rw [h]
      dsimp only
      rw [if_pos hnil]
    · intro hmem hne
      unfold create_transfer
      rw [h]
      dsimp only
      rw [if_neg hne, if_pos hmem]
    · intro hne hnmem
      set avail := if today < transfer_data.scheduled_date then
          source_tank.current_level
        else get_starting_volume_for_tank st.movements source_tank
          transfer_data.scheduled_date with havail
      constructor
      · intro hlt
        unfold create_transfer
        rw [h]
        dsimp only
        rw [if_neg hne, if_neg hnmem, ← havail, if_pos hlt]
      · constructor
        · rintro ⟨a, ha⟩
          by_contra hc
          rw [not_lt] at hc
          unfold create_transfer at ha
          rw [h] at ha
          dsimp only at ha
          rw [if_neg hne, if_neg hnmem, ← havail, if_neg (not_lt.mpr hc)] at ha
          rcases create_transfer_go_err st.tanks transfer_data.source_tank_id
              transfer_data.scheduled_date transfer_data.notes newIds now
              transfer_data.targets 0 st.movements [] source_tank.current_level
            with hgo | hgo <;>
            rw [hgo] at ha <;> simp at ha
        · intro hlt
          refine ⟨avail, ?_⟩
          unfold create_transfer
          rw [h]
          dsimp only
          rw [if_neg hne, if_neg hnmem, ← havail, if_pos hlt]

/-- Witness for C7's amended claim at the counterexample store: the request
of 120 against a starting volume of 50 fails as insufficient. -/
theorem create_transfer_validation_witness :
    create_transfer c7_st c7_transfer (fun _ => "N") 10 5 =
      (c7_st, .error (.insufficientFeedstock 50)) := by
  have h := ((create_transfer_validation c7_st c7_transfer (fun _ => "N") 10 5).2
    c7_source (by decide)).2.2 (by decide) (by decide)
  have havail : (if (5:Nat) < c7_transfer.scheduled_date then
      c7_source.current_level
    else get_starting_volume_for_tank c7_st.movements c7_source
      c7_transfer.scheduled_date) = 50 := by decide
  have hlt : (if (5:Nat) < c7_transfer.scheduled_date then
      c7_source.current_level
    else get_starting_volume_for_tank c7_st.movements c7_source
      c7_transfer.scheduled_date) <
      (c7_transfer.targets.map TransferTarget.volume).sum := by
    rw [havail]
    norm_num [c7_transfer]
  have := h.1 hlt
  rw [havail] at this
  exact this

theorem round2_int (n : ℤ) : round2 (n : ℚ) = n := by
  unfold round2 roundHalfEven
  have h1 : ((n : ℚ) * 100) = ((n * 100 : ℤ) : ℚ) := by push_cast; ring
  rw [h1, Int.floor_intCast]
  norm_num

theorem round2_zero : round2 0 = 0 := by
  have := round2_int 0
  simpa using this

/-- **C4, counterexample.**  Adjustment exactness fails under drift: with a
same-day movement whose recorded `resulting_volume` (999) disagrees with the
replayed value (110), the adjustment for a physical reading of 50 computes
its delta against 999 but is replayed on top of 110, so its persisted
`resulting_volume` is 0, not `round(50, 2) = 50`. -/
theorem adjustment_exactness_counterexample :
    (create_imported_adjustment c4_st "T" 50 5 none none "A" 2 10).2.map
      Movement.resulting_volume = .ok (some 0) ∧
    round2 50 = 50 ∧ (0 : ℚ) ≠ 50 := by
  refine ⟨?_, ?_, by norm_num⟩
  · simp +decide [create_imported_adjustment, refetchResult, c4_st, c4_tank,
      c4_load, getTank,
      get_starting_volume_for_tank, recalculate_tank_volumes,
      get_tank_movements_from_date, sortB, sortedInsert, tankMatchB, dateGeB,
      dateLtB, dateEqB, optDateLeB, defDateAscB, defDateDescB, createdAscB,
      effDateKey, effDateAscB, effDateDescB, Movement.scheduled_date,
      Movement.tank_id, Movement.expected_volume, recordedVolume, recalcStep,
      apply_movement_to_level, get_effective_volume, calculate_adjustment,
      updateResultingVolume, updateTargetResultingVolume, getMovement,
      update_tank_current_level]
    norm_num
    simp [Except.map, round2_zero]
  · have h := round2_int 50
    simpa using h

theorem stableRel_asym {le : α → α → Bool} {R : α → α → Prop}
    (hR : ∀ a b, R a b → R b a → False) (a b : α)
    (hab : stableRel le R a b) (hba : stableRel le R b a) : False := by
  rcases hab with ⟨h1, h2⟩ | ⟨h1, h2, h3⟩ <;>
    rcases hba with ⟨g1, g2⟩ | ⟨g1, g2, g3⟩
  · exact h2 g1
  · exact h2 g1
  · exact g2 h1
  · exact hR a b h3 g3

theorem created_lt_asym (a b : Movement) (h1 : a.created_at < b.created_at)
    (h2 : b.created_at < a.created_at) : False := by omega

theorem getTank_id {tanks : List Tank} {i : String} {t : Tank}
    (h : getTank tanks i = some t) : t.id = i := by
  have := List.find?_some h
  simpa using this

theorem getMovement_id {s : List Movement} {i : String} {m : Movement}
    (h : getMovement s i = some m) : m.id = i := by
  have := List.find?_some h
  simpa using this

/-- `getMovement` commutes with an id-preserving map of the store. -/
theorem getMovement_map (f : Movement → Movement) (hf : ∀ m, (f m).id = m.id)
    (s : List Movement) (i : String) :
    getMovement (s.map f) i = (getMovement s i).map f := by
  unfold getMovement
  induction s with
  | nil => rfl
  | cons m t ih =>
    simp only [List.map_cons, List.find?_cons, hf]
    by_cases h : (m.id == i) = true
    · simp [h]
    · simp only [h, Bool.false_eq_true, reduceCtorEq]
      simp only [Bool.not_eq_true] at h
      simp [h, ih]

theorem getMovement_updateResulting (s : List Movement) (j i : String) (v : ℚ) :
    getMovement (updateResultingVolume s j v) i =
      (getMovement s i).map (fun m =>
        if m.id = j then { m with resulting_volume := some v } else m) :=
  getMovement_map _ (fun m => by by_cases h : m.id = j <;> simp [h]) s i

theorem getMovement_updateTargetResulting (s : List Movement) (j i : String)
    (v : ℚ) :
    getMovement (updateTargetResultingVolume s j v) i =
      (getMovement s i).map (fun m =>
        if m.id = j then { m with target_resulting_volume := some v } else m) :=
  getMovement_map _ (fun m => by by_cases h : m.id = j <;> simp [h]) s i

theorem recalcStep_getMovement_ne (tank : Tank) (today : Nat)
    (st : List Movement × ℚ × ℚ) (m : Movement) (i : String) (h : m.id ≠ i) :
    getMovement (recalcStep tank today st m).1 i = getMovement st.1 i := by
  have key : ∀ v, (getMovement st.1 i).map (fun x =>
      if x.id = m.id then { x with resulting_volume := some v } else x) =
      getMovement st.1 i := by
    intro v
    cases hg : getMovement st.1 i with
    | none => rfl
    | some mi =>
      have hid : mi.id = i := getMovement_id hg
      simp [Option.map, if_neg (show ¬ mi.id = m.id by rw [hid]; exact fun hh => h hh.symm)]
  have key2 : ∀ v, (getMovement st.1 i).map (fun x =>
      if x.id = m.id then { x with target_resulting_volume := some v } else x) =
      getMovement st.1 i := by
    intro v
    cases hg : getMovement st.1 i with
    | none => rfl
    | some mi =>
      have hid : mi.id = i := getMovement_id hg
      simp [Option.map, if_neg (show ¬ mi.id = m.id by rw [hid]; exact fun hh => h hh.symm)]
  unfold recalcStep
  dsimp only
  split_ifs
  · rw [getMovement_updateResulting]
    exact key _
  · rw [getMovement_updateTargetResulting]
    exact key2 _
  · rfl

theorem foldl_recalc_getMovement_ne (tank : Tank) (today : Nat) (i : String) :
    ∀ (ms : List Movement) (st : List Movement × ℚ × ℚ),
      (∀ m ∈ ms, m.id ≠ i) →
      getMovement (ms.foldl (recalcStep tank today) st).1 i =
        getMovement st.1 i := by
  intro ms
  induction ms with
  | nil => intro st _; rfl
  | cons m t ih =>
    intro st h
    rw [List.foldl_cons, ih _ (fun x hx => h x (List.mem_cons_of_mem m hx)),
      recalcStep_getMovement_ne tank today st m i (h m (List.mem_cons_self m t))]

theorem getMovement_append_fresh (s : List Movement) (A : Movement)
    (h : ∀ m ∈ s, m.id ≠ A.id) : getMovement (s ++ [A]) A.id = some A := by
  unfold getMovement
  induction s with
  | nil => simp [List.find?]
  | cons m t ih =>
    rw [List.cons_append,
      List.find?_cons_of_neg _ (by
        simp only [beq_eq_false_iff_ne, ne_eq, Bool.not_eq_true]
        simp [h m (List.mem_cons_self m t)])]
    exact ih (fun x hx => h x (List.mem_cons_of_mem m hx))

/-- See `effGe_imp_query_or`: the strict-bound version. -/
theorem effLt_imp_query_or {m : Movement} {d : Nat}
    (h : dateLtB m.scheduled_date d = true) :
    (dateLtB m.scheduled_date_default d || dateLtB m.scheduled_date_manual d)
      = true := by
  unfold Movement.scheduled_date at h
  rw [Bool.or_eq_true]
  cases hman : m.scheduled_date_manual with
  | some v =>
    rw [hman] at h
    exact Or.inr h
  | none =>
    rw [hman] at h
    exact Or.inl h

/-- `_get_starting_volume_for_tank`, restated through `startingCandidates`. -/
theorem get_starting_volume_spec (store : List Movement) (tank : Tank)
    (before_date : Nat) :
    get_starting_volume_for_tank store tank before_date =
      (if (sortB effDateDescB (startingCandidates store tank
          before_date)).isEmpty then tank.initial_level
      else
        match (sortB effDateDescB (startingCandidates store tank
            before_date)).findSome? (recordedVolume tank.id) with
        | some v => v
        | none => calculate_tank_level tank
            (sortB effDateAscB (sortB effDateDescB (startingCandidates store
              tank before_date)))
            (some (before_date - 1)) 0) := rfl

/-- With no movement of the tank effective on `inspection_date` itself and at
most 100 stored movements, the scan window anchoring the recalculation that
starts at `inspection_date` (after appending a movement not dated before it)
coincides with the window that computed the system level as of the end of
`inspection_date`. -/
theorem startingCandidates_window_eq (store : List Movement) (tank : Tank)
    (A : Movement) (inspection_date : Nat)
    (hord : CreatedOrdered store)
    (hlen : store.length ≤ 100)
    (hA1 : dateLtB A.scheduled_date_default inspection_date = false)
    (hA2 : dateLtB A.scheduled_date_manual inspection_date = false)
    (hnoday : ∀ m ∈ store, tankMatchB tank.id m = true →
      m.scheduled_date ≠ some inspection_date) :
    startingCandidates (store ++ [A]) tank inspection_date =
      startingCandidates store tank (inspection_date + 1) := by
  unfold startingCandidates
  have hfL : (store ++ [A]).filter (fun m => tankMatchB tank.id m &&
      (dateLtB m.scheduled_date_default inspection_date ||
        dateLtB m.scheduled_date_manual inspection_date)) =
      store.filter (fun m => tankMatchB tank.id m &&
        (dateLtB m.scheduled_date_default inspection_date ||
          dateLtB m.scheduled_date_manual inspection_date)) := by
    rw [List.filter_append]
    simp [hA1, hA2]
  rw [hfL]
  have htakeL : (sortB defDateDescB (store.filter (fun m =>
      tankMatchB tank.id m &&
        (dateLtB m.scheduled_date_default inspection_date ||
          dateLtB m.scheduled_date_manual inspection_date)))).take 100 =
      sortB defDateDescB (store.filter (fun m => tankMatchB tank.id m &&
        (dateLtB m.scheduled_date_default inspection_date ||
          dateLtB m.scheduled_date_manual inspection_date))) :=
    List.take_of_length_le (by
      rw [length_sortB]
      exact le_trans (List.length_filter_le _ _) hlen)
  have htakeR : (sortB defDateDescB (store.filter (fun m =>
      tankMatchB tank.id m &&
        (dateLtB m.scheduled_date_default (inspection_date + 1) ||
          dateLtB m.scheduled_date_manual (inspection_date + 1))))).take 100 =
      sortB defDateDescB (store.filter (fun m => tankMatchB tank.id m &&
        (dateLtB m.scheduled_date_default (inspection_date + 1) ||
          dateLtB m.scheduled_date_manual (inspection_date + 1)))) :=
    List.take_of_length_le (by
      rw [length_sortB]
      exact le_trans (List.length_filter_le _ _) hlen)
  rw [htakeL, htakeR]
  -- both sides are permutations of the same canonical filter of the store,
  -- and both are pairwise-ordered by the same asymmetric stability relation
  apply eq_of_perm_of_pairwise
    (stableRel_asym (R := fun a b => a.created_at < b.created_at)
      created_lt_asym)
  · have hL : List.Perm ((sortB defDateDescB (store.filter (fun m =>
        tankMatchB tank.id m &&
          (dateLtB m.scheduled_date_default inspection_date ||
            dateLtB m.scheduled_date_manual inspection_date)))).filter
          (fun m => dateLtB m.scheduled_date inspection_date))
        ((store.filter (fun m => tankMatchB tank.id m &&
          (dateLtB m.scheduled_date_default inspection_date ||
            dateLtB m.scheduled_date_manual inspection_date))).filter
          (fun m => dateLtB m.scheduled_date inspection_date)) :=
      (sortB_perm _ _).filter _
    have hR : List.Perm ((sortB defDateDescB (store.filter (fun m =>
        tankMatchB tank.id m &&
          (dateLtB m.scheduled_date_default (inspection_date + 1) ||
            dateLtB m.scheduled_date_manual (inspection_date + 1))))).filter
          (fun m => dateLtB m.scheduled_date (inspection_date + 1)))
        ((store.filter (fun m => tankMatchB tank.id m &&
          (dateLtB m.scheduled_date_default (inspection_date + 1) ||
            dateLtB m.scheduled_date_manual (inspection_date + 1)))).filter
          (fun m => dateLtB m.scheduled_date (inspection_date + 1))) :=
      (sortB_perm _ _).filter _
    refine hL.trans (List.Perm.trans ?_ hR.symm)
    rw [List.filter_filter, List.filter_filter]
    apply List.Perm.of_eq
    apply List.filter_congr
    intro m hm
    by_cases htm : tankMatchB tank.id m = true
    · have hne := hnoday m hm htm
      cases heff : m.scheduled_date with
      | none => simp [dateLtB]
      | some v =>
        have hv : v ≠ inspection_date := fun h => hne (by rw [heff, h])
        by_cases hlt : v < inspection_date
        · have h1 : dateLtB (some v) inspection_date = true := by
            simp [dateLtB, hlt]
          have h2 : dateLtB (some v) (inspection_date + 1) = true := by
            simp [dateLtB]
            omega
          rw [h1, h2, htm]
          have g1 : (dateLtB m.scheduled_date_default inspection_date ||
              dateLtB m.scheduled_date_manual inspection_date) = true :=
            effLt_imp_query_or (heff ▸ h1)
          have g2 : (dateLtB m.scheduled_date_default (inspection_date + 1) ||
              dateLtB m.scheduled_date_manual (inspection_date + 1)) = true :=
            effLt_imp_query_or (heff ▸ h2)
          rw [g1, g2]
        · have h1 : dateLtB (some v) inspection_date = false := by
            simp [dateLtB]
            omega
          have h2 : dateLtB (some v) (inspection_date + 1) = false := by
            simp [dateLtB]
            omega
          rw [h1, h2]
          simp
    · simp only [Bool.not_eq_true] at htm
      simp [htm]
  · exact (sortB_stable defDateDescB_trans defDateDescB_total
      (hord.filter _)).filter _
  · exact (sortB_stable defDateDescB_trans defDateDescB_total
      (hord.filter _)).filter _

/-- Lifting `startingCandidates_window_eq` to the starting-volume values: the
anchor of the recalculation from `inspection_date` equals the system level as
of the end of `inspection_date`. -/
theorem starting_volume_window_eq (store : List Movement) (tank : Tank)
    (A : Movement) (inspection_date : Nat)
    (hord : CreatedOrdered store)
    (hlen : store.length ≤ 100)
    (hA1 : dateLtB A.scheduled_date_default inspection_date = false)
    (hA2 : dateLtB A.scheduled_date_manual inspection_date = false)
    (hnoday : ∀ m ∈ store, tankMatchB tank.id m = true →
      m.scheduled_date ≠ some inspection_date) :
    get_starting_volume_for_tank (store ++ [A]) tank inspection_date =
      get_starting_volume_for_tank store tank (inspection_date + 1) := by
  have hcand := startingCandidates_window_eq store tank A inspection_date hord
    hlen hA1 hA2 hnoday
  rw [get_starting_volume_spec, get_starting_volume_spec, hcand]
  have hmemprop : ∀ m ∈ startingCandidates store tank (inspection_date + 1),
      dateLtB m.scheduled_date inspection_date = true := by
    intro m hm
    rw [← hcand] at hm
    unfold startingCandidates at hm
    exact List.of_mem_filter (p := fun m : Movement =>
      dateLtB m.scheduled_date inspection_date) hm
  have hfilter : ∀ c : Nat, (∀ v : Nat, v < inspection_date → v ≤ c) →
      (sortB effDateAscB (sortB effDateDescB (startingCandidates store tank
        (inspection_date + 1)))).filter (notAfterB c) =
      sortB effDateAscB (sortB effDateDescB (startingCandidates store tank
        (inspection_date + 1))) := by
    intro c hc
    apply List.filter_eq_self.mpr
    intro m hm
    have hmC := hmemprop m (mem_sortB.mp (mem_sortB.mp hm))
    unfold notAfterB
    cases heff : m.scheduled_date with
    | none => rfl
    | some v =>
      rw [heff] at hmC
      simp only [dateLtB, decide_eq_true_eq] at hmC
      simp only [decide_eq_true_eq]
      exact hc v hmC
  have hfb : calculate_tank_level tank (sortB effDateAscB (sortB effDateDescB
      (startingCandidates store tank (inspection_date + 1))))
      (some (inspection_date - 1)) 0 =
      calculate_tank_level tank (sortB effDateAscB (sortB effDateDescB
        (startingCandidates store tank (inspection_date + 1))))
      (some (inspection_date + 1 - 1)) 0 := by
    rw [calculate_tank_level_eq_filter, calculate_tank_level_eq_filter]
    rw [show ((some (inspection_date - 1) : Option Nat)).getD 0 =
      inspection_date - 1 from rfl]
    rw [show ((some (inspection_date + 1 - 1) : Option Nat)).getD 0 =
      inspection_date + 1 - 1 from rfl]
    rw [hfilter (inspection_date - 1) (by omega),
      hfilter (inspection_date + 1 - 1) (by omega)]
  rw [hfb]

/-- A pairwise-sorted list whose member `A` is strictly below every other
member starts with `A`. -/
theorem eq_head_of_min {S : α → α → Prop} {l : List α} {A : α}
    (hpair : l.Pairwise S) (hmem : A ∈ l)
    (hmin : ∀ m ∈ l, m ≠ A → ¬ S m A) : l = A :: l.tail := by
  cases l with
  | nil => exact absurd hmem (List.not_mem_nil A)
  | cons h t =>
    by_cases hha : h = A
    · simp [hha]
    · exfalso
      have hA_t : A ∈ t := by
        rcases List.mem_cons.mp hmem with h1 | h1
        · exact absurd h1.symm hha
        · exact h1
      exact hmin h (List.mem_cons_self h t) hha
        ((List.pairwise_cons.mp hpair).1 A hA_t)

/-- The recalculation starting at the effective date of a freshly appended
movement `A` replays `A` first (no other movement of the tank shares that
date) and persists on `A` the rounded result of applying `A` to the starting
volume. -/
theorem recalc_writes_head (store : List Movement) (tank : Tank) (A : Movement)
    (from_date today : Nat)
    (hord' : CreatedOrdered (store ++ [A]))
    (hAtank : A.tank_id = some tank.id)
    (hAq : tankMatchB tank.id A = true)
    (hAeff : A.scheduled_date = some from_date)
    (hfresh : ∀ m ∈ store, m.id ≠ A.id)
    (hnoday : ∀ m ∈ store, tankMatchB tank.id m = true →
      m.scheduled_date ≠ some from_date) :
    getMovement (recalculate_tank_volumes (store ++ [A]) tank from_date none
        today).1 A.id =
      some { A with resulting_volume := some (round2 (apply_movement_to_level
        (get_starting_volume_for_tank (store ++ [A]) tank from_date) A
        tank.id)) } := by
  obtain ⟨hperm, hpair⟩ :=
    replay_order_characterization (store ++ [A]) tank.id from_date none hord'
  set L := get_tank_movements_from_date (store ++ [A]) tank.id from_date none
    with hL
  have hpredA : (tankMatchB tank.id A && dateGeB A.scheduled_date from_date &&
      (true : Bool)) = true := by
    rw [hAq, hAeff]
    simp [dateGeB]
  have hfilterapp : (store ++ [A]).filter (fun m =>
      tankMatchB tank.id m && dateGeB m.scheduled_date from_date &&
        (match (none : Option String) with
         | some ex => !(m.id == ex)
         | none => true)) =
      store.filter (fun m => tankMatchB tank.id m &&
        dateGeB m.scheduled_date from_date &&
          (match (none : Option String) with
           | some ex => !(m.id == ex)
           | none => true)) ++ [A] := by
    rw [List.filter_append]
    simp only [List.filter_cons, List.filter_nil]
    rw [if_pos hpredA]
  have hmemA : A ∈ L := hperm.mem_iff.mpr (by
    rw [hfilterapp]
    exact List.mem_append_right _ (List.mem_singleton_self A))
  have hother : ∀ m ∈ L, m ≠ A → effDateKey A < effDateKey m := by
    intro m hm hne
    have hmf := hperm.mem_iff.mp hm
    rw [hfilterapp] at hmf
    rcases List.mem_append.mp hmf with hmf | hmf
    · have hpred := List.of_mem_filter hmf
      have hmstore := List.mem_of_mem_filter hmf
      simp only [Bool.and_eq_true] at hpred
      have htm := hpred.1.1
      have hge := hpred.1.2
      have hnd := hnoday m hmstore htm
      cases heff : m.scheduled_date with
      | none => rw [heff] at hge; simp [dateGeB] at hge
      | some w =>
        rw [heff] at hge
        simp only [dateGeB, decide_eq_true_eq] at hge
        have hwne : w ≠ from_date := fun h => hnd (by rw [heff, h])
        simp only [effDateKey, hAeff, heff, Option.getD_some]
        omega
    · exact absurd (List.mem_singleton.mp hmf) hne
  have hhead : L = A :: L.tail := by
    apply eq_head_of_min hpair hmemA
    intro m hm hne hS
    have hle : effDateAscB m A = true := stableRel_le hS
    simp only [effDateAscB, decide_eq_true_eq] at hle
    have hlt := hother m hm hne
    omega
  have htail : ∀ m ∈ L.tail, m.id ≠ A.id := by
    have htailperm : List.Perm L.tail (store.filter (fun m =>
        tankMatchB tank.id m && dateGeB m.scheduled_date from_date &&
          (match (none : Option String) with
           | some ex => !(m.id == ex)
           | none => true))) := by
      apply List.Perm.cons_inv (a := A)
      rw [← hhead]
      exact hperm.trans (by
        rw [hfilterapp]
        exact List.perm_append_singleton _ _)
    intro m hm
    have : m ∈ store :=
      List.mem_of_mem_filter (htailperm.mem_iff.mp hm)
    exact hfresh m this
  simp only [recalculate_tank_volumes]
  rw [← hL, hhead, List.foldl_cons]
  rw [foldl_recalc_getMovement_ne tank today A.id L.tail _ htail]
  unfold recalcStep
  dsimp only
  rw [if_pos hAtank]
  rw [getMovement_updateResulting]
  rw [getMovement_append_fresh store A hfresh]
  simp

/-- **C4, amended.**  `create_imported_adjustment` creates a Completed
ADJUSTMENT movement whose `actual_volume` is the physical level minus the
system level as of the inspection date, and the triggered recalculation
persists `resulting_volume = round(physical_level, 2)` on it — provided the
ledger has no drift the adjustment can observe: no other movement of the
tank is effective on the inspection date itself (the counterexample shows
drift on a same-day movement breaks exactness), the store holds at most 100
movements (the anchor queries fetch a 100-document window), the reading is
nonnegative, and the reading differs from the system level — a zero
adjustment fails `expected_volume_default`'s pydantic `gt=0` validation at
the `Movement(...)` construction, so nothing is created. -/
theorem adjustment_exactness_amended (st : St) (tank_id : String)
    (physical_level : ℚ) (inspection_date : Nat)
    (notes pdf_url : Option String) (new_id : String) (now today : Nat)
    (tank : Tank)
    (htank : getTank st.tanks tank_id = some tank)
    (hcap : physical_level ≤ tank.capacity)
    (hphys : 0 ≤ physical_level)
    (hne : physical_level ≠
      get_starting_volume_for_tank st.movements tank (inspection_date + 1))
    (hord : CreatedOrdered st.movements)
    (hnow : ∀ m ∈ st.movements, m.created_at < now)
    (hfresh : ∀ m ∈ st.movements, m.id ≠ new_id)
    (hlen : st.movements.length ≤ 100)
    (hnoday : ∀ m ∈ st.movements, tankMatchB tank.id m = true →
      m.scheduled_date ≠ some inspection_date) :
    ∃ stm created,
      create_imported_adjustment st tank_id physical_level inspection_date
        notes pdf_url new_id now today = (stm, .ok created) ∧
      created.resulting_volume = some (round2 physical_level) ∧
      created.actual_volume = some (physical_level -
        get_starting_volume_for_tank st.movements tank (inspection_date + 1)) := by
  have htid : tank.id = tank_id := getTank_id htank
  unfold create_imported_adjustment
  rw [htank]
  dsimp only
  rw [if_neg (not_lt.mpr hcap)]
  set S := get_starting_volume_for_tank st.movements tank (inspection_date + 1)
    with hSd
  have hq : 0 < |calculate_adjustment S physical_level| := by
    unfold calculate_adjustment
    exact abs_pos.mpr (sub_ne_zero.mpr hne)
  rw [if_pos hq]
  set A : Movement :=
    { type := MovementType.adjustment,
      tank_id_default := some tank_id,
      expected_volume_default := some |calculate_adjustment S physical_level|,
      actual_volume := some (calculate_adjustment S physical_level),
      scheduled_date_default := some inspection_date,
      notes_default := some
        (if calculate_adjustment S physical_level < 0 then
          "(Loss) " ++ (notes).getD "Physical reading adjustment."
        else "(Gain) " ++ (notes).getD "Physical reading adjustment."),
      pdf_url := pdf_url,
      id := new_id, created_at := now } with hAd
  have hAtank : A.tank_id = some tank.id := by
    rw [hAd]
    unfold Movement.tank_id
    rw [htid]
  have hAq : tankMatchB tank.id A = true := by
    rw [hAd]
    unfold tankMatchB
    rw [htid]
    simp
  have hAeff : A.scheduled_date = some inspection_date := by
    rw [hAd]
    unfold Movement.scheduled_date
    rfl
  have hfreshA : ∀ m ∈ st.movements, m.id ≠ A.id := hfresh
  have hordA : CreatedOrdered (st.movements ++ [A]) := by
    unfold CreatedOrdered
    rw [List.pairwise_append]
    refine ⟨hord, List.pairwise_singleton _ _, ?_⟩
    intro a ha b hb
    rw [List.mem_singleton] at hb
    subst hb
    exact hnow a ha
  have hkey := recalc_writes_head st.movements tank A inspection_date today
    hordA hAtank hAq hAeff hfreshA hnoday
  have hS' : get_starting_volume_for_tank (st.movements ++ [A]) tank
      inspection_date = S := by
    rw [hSd]
    apply starting_volume_window_eq st.movements tank A inspection_date hord
      hlen ?_ ?_ hnoday
    · rw [hAd]
      simp [dateLtB]
    · rw [hAd]
      rfl
  have hdelta : get_volume_delta A tank.id = calculate_adjustment S
      physical_level := by
    unfold get_volume_delta get_effective_volume
    have h1 : A.type = MovementType.adjustment := by rw [hAd]
    have h2 : A.actual_volume = some (calculate_adjustment S physical_level) := by
      rw [hAd]
    rw [h1, h2]
    simp [hAtank]
  have happly : apply_movement_to_level (get_starting_volume_for_tank
      (st.movements ++ [A]) tank inspection_date) A tank.id =
      physical_level := by
    rw [hS', apply_movement_to_level_eq, hdelta]
    unfold calculate_adjustment
    rw [show S + (physical_level - S) = physical_level from by ring]
    exact max_eq_right hphys
  rw [happly] at hkey
  have hkey' : getMovement (recalculate_tank_volumes (st.movements ++ [A])
      tank inspection_date none today).1 new_id =
      some { A with resulting_volume := some (round2 physical_level) } := hkey
  unfold refetchResult
  dsimp only
  rw [hkey']
  refine ⟨_, _, rfl, ?_, ?_⟩
  · rfl
  · rw [hAd]
    unfold calculate_adjustment
    rfl

/-- Witness for C4's amended claim: on an empty ledger the adjustment's
persisted `resulting_volume` is exactly the rounded physical reading. -/
theorem adjustment_exactness_amended_witness :
    ∃ stm created,
      create_imported_adjustment { movements := [], tanks := [c4_tank] } "T" 50
        5 none none "A" 1 10 = (stm, .ok created) ∧
      created.resulting_volume = some (round2 50) ∧
      created.actual_volume = some (50 -
        get_starting_volume_for_tank [] c4_tank (5 + 1)) :=
  adjustment_exactness_amended { movements := [], tanks := [c4_tank] } "T" 50 5
    none none "A" 1 10 c4_tank (by decide) (by decide) (by decide) (by decide)
    List.Pairwise.nil (by simp) (by simp) (by simp) (by simp)

theorem sortedInsert_cons_of_le {le : α → α → Bool} {a b : α} {t : List α}
    (h : le a b = true) : sortedInsert le a (b :: t) = a :: b :: t := by
  unfold sortedInsert
  rw [if_pos h]

/-- A stable sort of an already-sorted list is the identity. -/
theorem sortB_of_pairwise {le : α → α → Bool} {l : List α}
    (h : l.Pairwise (fun a b => le a b = true)) : sortB le l = l := by
  induction l with
  | nil => rfl
  | cons a t ih =>
    rcases List.pairwise_cons.mp h with ⟨ha, ht⟩
    show sortedInsert le a (sortB le t) = a :: t
    rw [ih ht]
    cases t with
    | nil => rfl
    | cons b t' => exact sortedInsert_cons_of_le (ha b (List.mem_cons_self b t'))

theorem findSome?_append_left_none {f : α → Option β} {l₁ l₂ : List α}
    (h : ∀ x ∈ l₁, f x = none) :
    (l₁ ++ l₂).findSome? f = l₂.findSome? f := by
  induction l₁ with
  | nil => rfl
  | cons a t ih =>
    rw [List.cons_append, List.findSome?_cons, h a (List.mem_cons_self a t)]
    exact ih (fun x hx => h x (List.mem_cons_of_mem a hx))

theorem sumDeltas_perm {l₁ l₂ : List Movement} (h : List.Perm l₁ l₂)
    (tank_id : String) : sumDeltas l₁ tank_id = sumDeltas l₂ tank_id :=
  (h.map _).sum_eq

theorem c2_mov_delta (i : Nat) : get_volume_delta (c2_mov i) "T" = 1 := by
  unfold get_volume_delta get_effective_volume c2_mov
  simp [Movement.tank_id, Movement.expected_volume]

theorem c2_mov_pairwise_def_desc :
    ((List.range 100).map c2_mov).Pairwise (fun a b => defDateDescB a b = true) := by
  rw [List.pairwise_map]
  apply (List.sorted_lt_range 100).imp
  intro i j hij
  simp only [defDateDescB, c2_mov, optDateLeB, decide_eq_true_eq]
  omega

theorem c2_store_pairwise_def_desc :
    c2_store.Pairwise (fun a b => defDateDescB a b = true) := by
  unfold c2_store
  rw [List.pairwise_append]
  refine ⟨c2_mov_pairwise_def_desc, List.pairwise_singleton _ _, ?_⟩
  intro a ha b hb
  rw [List.mem_singleton] at hb
  subst hb
  rcases List.mem_map.mp ha with ⟨i, hi, rfl⟩
  rw [List.mem_range] at hi
  simp only [defDateDescB, c2_mov, c2_recorded, optDateLeB, decide_eq_true_eq]
  omega

theorem c2_mov_pairwise_eff_desc :
    ((List.range 100).map c2_mov).Pairwise (fun a b => effDateDescB a b = true) := by
  rw [List.pairwise_map]
  apply (List.sorted_lt_range 100).imp
  intro i j hij
  simp only [effDateDescB, effDateKey, c2_mov, Movement.scheduled_date,
    Option.getD_some, decide_eq_true_eq]
  omega

theorem c2_store_pairwise_eff_desc :
    c2_store.Pairwise (fun a b => effDateDescB a b = true) := by
  unfold c2_store
  rw [List.pairwise_append]
  refine ⟨c2_mov_pairwise_eff_desc, List.pairwise_singleton _ _, ?_⟩
  intro a ha b hb
  rw [List.mem_singleton] at hb
  subst hb
  rcases List.mem_map.mp ha with ⟨i, hi, rfl⟩
  rw [List.mem_range] at hi
  simp only [effDateDescB, effDateKey, c2_mov, c2_recorded,
    Movement.scheduled_date, Option.getD_some, decide_eq_true_eq]
  omega

theorem c2_mov_recorded_none (i : Nat) :
    recordedVolume "T" (c2_mov i) = none := by
  unfold recordedVolume c2_mov
  simp [Movement.tank_id]

theorem c2_code_value : get_starting_volume_for_tank c2_store c2_tank 200 = 100 := by
  rw [get_starting_volume_spec]
  unfold startingCandidates
  have hfilter : c2_store.filter (fun m => tankMatchB c2_tank.id m &&
      (dateLtB m.scheduled_date_default 200 ||
        dateLtB m.scheduled_date_manual 200)) = c2_store := by
    apply List.filter_eq_self.mpr
    intro m hm
    unfold c2_store at hm
    rcases List.mem_append.mp hm with hm | hm
    · rcases List.mem_map.mp hm with ⟨i, hi, rfl⟩
      rw [List.mem_range] at hi
      simp only [c2_mov, c2_tank, tankMatchB, dateLtB, Bool.and_eq_true,
        Bool.or_eq_true]
      refine ⟨by simp, Or.inl ?_⟩
      simp only [decide_eq_true_eq]
      omega
    · rw [List.mem_singleton] at hm
      subst hm
      simp [c2_recorded, c2_tank, tankMatchB, dateLtB]
  rw [hfilter]
  rw [sortB_of_pairwise c2_store_pairwise_def_desc]
  have htake : c2_store.take 100 = (List.range 100).map c2_mov := by
    unfold c2_store
    have h := List.take_left ((List.range 100).map c2_mov) [c2_recorded]
    rw [show ((List.range 100).map c2_mov).length = 100 from by simp] at h
    exact h
  rw [htake]
  have hfilter2 : ((List.range 100).map c2_mov).filter
      (fun m => dateLtB m.scheduled_date 200) = (List.range 100).map c2_mov := by
    apply List.filter_eq_self.mpr
    intro m hm
    rcases List.mem_map.mp hm with ⟨i, hi, rfl⟩
    rw [List.mem_range] at hi
    simp only [c2_mov, Movement.scheduled_date, dateLtB, decide_eq_true_eq]
    omega
  rw [hfilter2]
  rw [sortB_of_pairwise c2_mov_pairwise_eff_desc]
  rw [if_neg (by simp)]
  rw [List.findSome?_eq_none_iff.mpr (by
    intro m hm
    rcases List.mem_map.mp hm with ⟨i, hi, rfl⟩
    have h := c2_mov_recorded_none i
    simpa [c2_tank] using h)]
  rw [calculate_tank_level_eq_filter]
  have hfilter3 : (sortB effDateAscB ((List.range 100).map c2_mov)).filter
      (notAfterB ((some (200 - 1) : Option Nat).getD 0)) =
      sortB effDateAscB ((List.range 100).map c2_mov) := by
    apply List.filter_eq_self.mpr
    intro m hm
    have hm2 := mem_sortB.mp hm
    rcases List.mem_map.mp hm2 with ⟨i, hi, rfl⟩
    rw [List.mem_range] at hi
    simp only [notAfterB, c2_mov, Movement.scheduled_date, Option.getD_some,
      decide_eq_true_eq]
    omega
  rw [hfilter3, foldl_step_eq_sum]
  have hsum : sumDeltas (sortB effDateAscB ((List.range 100).map c2_mov))
      c2_tank.id = 100 := by
    rw [sumDeltas_perm (sortB_perm _ _) _]
    unfold sumDeltas
    rw [List.map_map]
    have : ((List.range 100).map (fun i =>
        get_volume_delta (c2_mov i) c2_tank.id)) = List.replicate 100 1 := by
      have := List.map_congr_left (l := List.range 100)
        (f := fun i => get_volume_delta (c2_mov i) c2_tank.id)
        (g := fun _ => (1:ℚ)) (by
          intro i _
          simpa [c2_tank] using c2_mov_delta i)
      rw [this, List.map_const']
      simp
    rw [show ((fun m => get_volume_delta m c2_tank.id) ∘ c2_mov) =
      (fun i => get_volume_delta (c2_mov i) c2_tank.id) from rfl, this]
    rw [List.sum_replicate, nsmul_eq_mul]
    norm_num
  rw [hsum]
  norm_num [c2_tank]

theorem c2_claim_value : claimed_starting_volume c2_store c2_tank 200 = 500 := by
  unfold claimed_starting_volume
  have hfilter : c2_store.filter (fun m => tankMatchB c2_tank.id m &&
      dateLtB m.scheduled_date 200) = c2_store := by
    apply List.filter_eq_self.mpr
    intro m hm
    unfold c2_store at hm
    rcases List.mem_append.mp hm with hm | hm
    · rcases List.mem_map.mp hm with ⟨i, hi, rfl⟩
      rw [List.mem_range] at hi
      simp only [c2_mov, c2_tank, tankMatchB, dateLtB, Movement.scheduled_date,
        Bool.and_eq_true]
      refine ⟨by simp, ?_⟩
      simp only [decide_eq_true_eq]
      omega
    · rw [List.mem_singleton] at hm
      subst hm
      simp [c2_recorded, c2_tank, tankMatchB, dateLtB, Movement.scheduled_date]
  rw [hfilter]
  rw [sortB_of_pairwise c2_store_pairwise_eff_desc]
  rw [if_neg (by simp [c2_store])]
  unfold c2_store
  rw [findSome?_append_left_none (by
    intro m hm
    rcases List.mem_map.mp hm with ⟨i, hi, rfl⟩
    have h := c2_mov_recorded_none i
    simpa [c2_tank] using h)]
  rw [List.findSome?_cons]
  have : recordedVolume c2_tank.id c2_recorded = some 500 := by
    unfold recordedVolume c2_recorded
    simp [Movement.tank_id, c2_tank]
  rw [this]

/-- **C2, counterexample.**  The starting-volume scan fetches at most 100
candidate movements (`limit=100`, ordered by default date descending): with
101 prior movements where only the oldest carries a recorded
`resulting_volume` (500), the oldest falls outside the window, so the code
ignores the recorded volume and replays only the 100 fetched movements from
`initial_level` (giving 100), while the claim's full scan returns 500. -/
theorem starting_volume_window_counterexample :
    get_starting_volume_for_tank c2_store c2_tank 200 = 100 ∧
    claimed_starting_volume c2_store c2_tank 200 = 500 ∧
    (100 : ℚ) ≠ 500 :=
  ⟨c2_code_value, c2_claim_value, by norm_num⟩

theorem pairwise_strict_desc_of_le_of_ne {l : List Movement}
    (hle : l.Pairwise (fun a b => effDateDescB a b = true))
    (hne : l.Pairwise (fun a b => effDateKey a ≠ effDateKey b)) :
    l.Pairwise (fun a b => effDateKey b < effDateKey a) := by
  have h := hle.and hne
  apply h.imp
  intro a b hab
  rcases hab with ⟨h1, h2⟩
  simp only [effDateDescB, decide_eq_true_eq] at h1
  omega

/-- **C2, amended.**  The claimed starting-volume semantics (scan every
movement of the tank before the date in effective-date-descending order for
a recorded volume, else replay them all, else return the initial level)
holds only within the query's 100-document fetch window: it is exact
whenever the store holds at most 100 movements (and — so that the scan
order is determined — movements of the tank have pairwise-distinct
effective dates). -/
theorem starting_volume_characterization (store : List Movement) (tank : Tank)
    (before_date : Nat)
    (hlen : store.length ≤ 100)
    (hdist : store.Pairwise (fun a b => tankMatchB tank.id a = true →
      tankMatchB tank.id b = true → effDateKey a ≠ effDateKey b)) :
    get_starting_volume_for_tank store tank before_date =
      claimed_starting_volume store tank before_date := by
  rw [get_starting_volume_spec]
  unfold claimed_starting_volume startingCandidates
  rw [List.take_of_length_le (by
    rw [length_sortB]
    exact le_trans (List.length_filter_le _ _) hlen)]
  have hpermbase : List.Perm
      ((sortB defDateDescB (store.filter (fun m => tankMatchB tank.id m &&
        (dateLtB m.scheduled_date_default before_date ||
          dateLtB m.scheduled_date_manual before_date)))).filter
        (fun m => dateLtB m.scheduled_date before_date))
      (store.filter (fun m => tankMatchB tank.id m &&
        dateLtB m.scheduled_date before_date)) := by
    refine ((sortB_perm _ _).filter _).trans ?_
    rw [List.filter_filter]
    apply List.Perm.of_eq
    apply List.filter_congr
    intro m _
    cases hq : dateLtB m.scheduled_date before_date
    · simp [hq]
    · simp [hq, effLt_imp_query_or hq]
  have hsym : Symmetric (fun a b : Movement =>
      tankMatchB tank.id a = true → tankMatchB tank.id b = true →
        effDateKey a ≠ effDateKey b) := by
    intro a b h hb ha
    exact (h ha hb).symm
  have hneL : ((sortB defDateDescB (store.filter (fun m =>
      tankMatchB tank.id m && (dateLtB m.scheduled_date_default before_date ||
        dateLtB m.scheduled_date_manual before_date)))).filter
      (fun m => dateLtB m.scheduled_date before_date)).Pairwise
      (fun a b => effDateKey a ≠ effDateKey b) := by
    have h1 := hdist.filter (fun m => tankMatchB tank.id m &&
      (dateLtB m.scheduled_date_default before_date ||
        dateLtB m.scheduled_date_manual before_date))
    have h2 := (List.Perm.pairwise_iff (fun hab => hsym hab)
      (sortB_perm defDateDescB _)).mpr h1
    have h3 := h2.filter (fun m => dateLtB m.scheduled_date before_date)
    apply List.Pairwise.imp_of_mem ?_ h3
    intro a b ha hb hr
    have hta : tankMatchB tank.id a = true := by
      have h := List.of_mem_filter (mem_sortB.mp (List.mem_of_mem_filter ha))
      rw [Bool.and_eq_true] at h
      exact h.1
    have htb : tankMatchB tank.id b = true := by
      have h := List.of_mem_filter (mem_sortB.mp (List.mem_of_mem_filter hb))
      rw [Bool.and_eq_true] at h
      exact h.1
    exact hr hta htb
  have hneR : (store.filter (fun m => tankMatchB tank.id m &&
      dateLtB m.scheduled_date before_date)).Pairwise
      (fun a b => effDateKey a ≠ effDateKey b) := by
    have h1 := hdist.filter (fun m => tankMatchB tank.id m &&
      dateLtB m.scheduled_date before_date)
    apply List.Pairwise.imp_of_mem ?_ h1
    intro a b ha hb hr
    have ha2 := List.of_mem_filter ha
    have hb2 := List.of_mem_filter hb
    rw [Bool.and_eq_true] at ha2 hb2
    exact hr ha2.1 hb2.1
  have hscan : sortB effDateDescB ((sortB defDateDescB (store.filter (fun m =>
      tankMatchB tank.id m && (dateLtB m.scheduled_date_default before_date ||
        dateLtB m.scheduled_date_manual before_date)))).filter
      (fun m => dateLtB m.scheduled_date before_date)) =
      sortB effDateDescB (store.filter (fun m => tankMatchB tank.id m &&
        dateLtB m.scheduled_date before_date)) := by
    apply eq_of_perm_of_pairwise
      (S := fun a b : Movement => effDateKey b < effDateKey a)
      (fun a b h1 h2 => by omega)
    · exact (sortB_perm _ _).trans (hpermbase.trans (sortB_perm _ _).symm)
    · exact pairwise_strict_desc_of_le_of_ne
        (sortB_pairwise effDateDescB_trans effDateDescB_total _)
        ((List.Perm.pairwise_iff (fun h => Ne.symm h)
          (sortB_perm effDateDescB _)).mpr hneL)
    · exact pairwise_strict_desc_of_le_of_ne
        (sortB_pairwise effDateDescB_trans effDateDescB_total _)
        ((List.Perm.pairwise_iff (fun h => Ne.symm h)
          (sortB_perm effDateDescB _)).mpr hneR)
  rw [hscan]

/-- Witness for C2's amended claim: a one-movement store is inside the fetch
window, so the code agrees with the claimed scan. -/
theorem starting_volume_characterization_witness :
    get_starting_volume_for_tank [c4_load] c4_tank 6 =
      claimed_starting_volume [c4_load] c4_tank 6 :=
  starting_volume_characterization [c4_load] c4_tank 6 (by simp)
    (List.pairwise_singleton _ _)

theorem refetchResult_error (str : List Movement × List Tank)
    (movement_id : String) (st' : St) (e : SvcError)
    (h : refetchResult str movement_id = (st', .error e)) :
    e = .refetchFailed := by
  unfold refetchResult at h
  split at h <;> simp_all

theorem create_error_unchanged (st : St) (movement_data : MovementCreate)
    (new_id : String) (now today : Nat) (st' : St) (e : SvcError)
    (h : create st movement_data new_id now today = (st', .error e))
    (hbiz : isBusinessRuleError e = true) : st' = st := by
  unfold create at h
  split at h
  · simp only [Prod.mk.injEq] at h
    exact h.1.symm
  · cases hv : createTargetCheck st movement_data with
    | error e1 =>
      rw [hv] at h
      dsimp only at h
      simp only [Prod.mk.injEq] at h
      exact h.1.symm
    | ok otank =>
      rw [hv] at h
      dsimp only at h
      split at h
      · simp only [Prod.mk.injEq] at h
        exact h.1.symm
      · split at h
        · simp at h
        · simp only [Prod.mk.injEq] at h
          obtain ⟨h1, h2⟩ := h
          injection h2 with h3
          rw [← h3] at hbiz
          simp [isBusinessRuleError] at hbiz

theorem update_error_unchanged (st : St) (movement_id : String)
    (data : MovementUpdate) (today : Nat) (st' : St) (e : SvcError)
    (h : update st movement_id data today = (st', .error e))
    (hbiz : isBusinessRuleError e = true) : st' = st := by
  unfold update at h
  split at h
  · simp only [Prod.mk.injEq] at h
    exact h.1.symm
  · next movement heq =>
    split at h
    · simp only [Prod.mk.injEq] at h
      exact h.1.symm
    · cases hv : updateValidation st movement data with
      | error e1 =>
        rw [hv] at h
        dsimp only at h
        simp only [Prod.mk.injEq] at h
        exact h.1.symm
      | ok u =>
        rw [hv] at h
        dsimp only at h
        split at h
        · simp at h
        · split at h
          · simp only [Prod.mk.injEq] at h
            exact h.1.symm
          · split at h
            · split at h
              · simp at h
              · simp only [Prod.mk.injEq] at h
                obtain ⟨h1, h2⟩ := h
                injection h2 with h3
                rw [← h3] at hbiz
                simp [isBusinessRuleError] at hbiz
            · simp at h

theorem complete_error_unchanged (st : St) (movement_id : String)
    (actual_volume : ℚ) (today : Nat) (st' : St) (e : SvcError)
    (h : complete st movement_id actual_volume today = (st', .error e))
    (hbiz : isBusinessRuleError e = true) : st' = st := by
  unfold complete at h
  split at h
  · simp only [Prod.mk.injEq] at h
    exact h.1.symm
  · split at h
    · simp only [Prod.mk.injEq] at h
      exact h.1.symm
    · rw [refetchResult_error _ _ _ _ h] at hbiz
      simp [isBusinessRuleError] at hbiz

theorem adjustment_error_unchanged (st : St) (tank_id : String)
    (physical_level : ℚ) (inspection_date : Nat)
    (notes pdf_url : Option String) (new_id : String) (now today : Nat)
    (st' : St) (e : SvcError)
    (h : create_imported_adjustment st tank_id physical_level inspection_date
      notes pdf_url new_id now today = (st', .error e))
    (hbiz : isBusinessRuleError e = true) : st' = st := by
  unfold create_imported_adjustment at h
  split at h
  · simp only [Prod.mk.injEq] at h
    exact h.1.symm
  · next tank heqt =>
    split at h
    · simp only [Prod.mk.injEq] at h
      exact h.1.symm
    · dsimp only at h
      by_cases hq : 0 < |calculate_adjustment (get_starting_volume_for_tank
          st.movements tank (inspection_date + 1)) physical_level|
      · rw [if_pos hq] at h
        rw [refetchResult_error _ _ _ _ h] at hbiz
        simp [isBusinessRuleError] at hbiz
      · rw [if_neg hq] at h
        simp only [Prod.mk.injEq] at h
        exact h.1.symm

/-- **C6.**  Single-movement operations detect every business-rule failure
(tank / target / movement not found, insufficient volume, source equals
target, physical level over capacity, movement already completed) before any
write: whenever `create`, `update`, `complete`, or `create_adjustment`
returns such an error, the returned stores equal the input stores; `delete`
of a missing movement returns `false` without writing; and in particular a
DISCHARGE whose expected volume exceeds the available volume fails with the
insufficient-feedstock error and creates nothing. -/
theorem business_errors_leave_state_unchanged :
    (∀ (st : St) (movement_data : MovementCreate) (new_id : String)
        (now today : Nat) (st' : St) (e : SvcError),
      create st movement_data new_id now today = (st', .error e) →
      isBusinessRuleError e = true → st' = st) ∧
    (∀ (st : St) (movement_id : String) (data : MovementUpdate) (today : Nat)
        (st' : St) (e : SvcError),
      update st movement_id data today = (st', .error e) →
      isBusinessRuleError e = true → st' = st) ∧
    (∀ (st : St) (movement_id : String) (actual_volume : ℚ) (today : Nat)
        (st' : St) (e : SvcError),
      complete st movement_id actual_volume today = (st', .error e) →
      isBusinessRuleError e = true → st' = st) ∧
    (∀ (st : St) (tank_id : String) (physical_level : ℚ)
        (inspection_date : Nat) (notes pdf_url : Option String)
        (new_id : String) (now today : Nat) (st' : St) (e : SvcError),
      create_imported_adjustment st tank_id physical_level inspection_date
        notes pdf_url new_id now today = (st', .error e) →
      isBusinessRuleError e = true → st' = st) ∧
    (∀ (st : St) (movement_id : String) (today : Nat),
      getMovement st.movements movement_id = none →
      delete st movement_id today = (st, false)) ∧
    (∀ (st : St) (movement_data : MovementCreate) (new_id : String)
        (now today : Nat) (tank : Tank),
      getTank st.tanks movement_data.tank_id = some tank →
      movement_data.type = MovementType.discharge →
      get_available_volume_for_movement st.movements tank
          movement_data.scheduled_date none < movement_data.expected_volume →
      create st movement_data new_id now today =
        (st, .error (.insufficientFeedstock (get_available_volume_for_movement
          st.movements tank movement_data.scheduled_date none)))) := by
  refine ⟨create_error_unchanged, update_error_unchanged,
    complete_error_unchanged, adjustment_error_unchanged, ?_, ?_⟩
  · intro st movement_id today hnone
    unfold delete
    rw [hnone]
  · intro st movement_data new_id now today tank htank hdis hlt
    unfold create
    rw [htank]
    dsimp only
    have hv : createTargetCheck st movement_data = .ok none := by
      unfold createTargetCheck
      rw [if_neg (by rw [hdis]; simp)]
    rw [hv]
    dsimp only
    rw [if_pos ⟨Or.inl hdis, hlt⟩]

/-- Witness for C6 at concrete inputs: creating against a missing tank fails
with `tankNotFound` and leaves the (empty) stores unchanged. -/
theorem business_errors_leave_state_unchanged_witness :
    ({ movements := [], tanks := [] } : St) =
      { movements := [], tanks := [] } :=
  business_errors_leave_state_unchanged.1
    { movements := [], tanks := [] }
    { type := MovementType.load, tank_id := "X", expected_volume := 1,
      scheduled_date := 1 } "n" 0 0 { movements := [], tanks := [] }
    .tankNotFound rfl (by decide)

theorem stripRV_fields {a b : Movement} (h : stripRV a = stripRV b) :
    a.id = b.id ∧ a.type = b.type ∧ a.target_tank_id = b.target_tank_id ∧
    a.actual_volume = b.actual_volume ∧ a.tank_id_default = b.tank_id_default ∧
    a.tank_id_manual = b.tank_id_manual ∧
    a.expected_volume_default = b.expected_volume_default ∧
    a.expected_volume_manual = b.expected_volume_manual ∧
    a.scheduled_date_default = b.scheduled_date_default ∧
    a.scheduled_date_manual = b.scheduled_date_manual ∧
    a.created_at = b.created_at := by
  unfold stripRV at h
  injection h with e1 e2 e3 e4 e5 e6 e7 e8 e9 e10 e11 e12 e13 e14 e15 e16
    e17 e18 e19 e20 e21 e22 e23 e24 e25 e26 e27 e28 e29 e30 e31 e32
  exact ⟨e31, e1, e2, e3, e7, e8, e9, e10, e11, e12, e32⟩

theorem stripRV_tank_id {a b : Movement} (h : stripRV a = stripRV b) :
    Movement.tank_id a = Movement.tank_id b := by
  obtain ⟨-, -, -, -, h5, h6, -⟩ := stripRV_fields h
  unfold Movement.tank_id
  rw [h5, h6]

theorem stripRV_sched {a b : Movement} (h : stripRV a = stripRV b) :
    Movement.scheduled_date a = Movement.scheduled_date b := by
  obtain ⟨-, -, -, -, -, -, -, -, h9, h10, -⟩ := stripRV_fields h
  unfold Movement.scheduled_date
  rw [h9, h10]

theorem stripRV_expected {a b : Movement} (h : stripRV a = stripRV b) :
    Movement.expected_volume a = Movement.expected_volume b := by
  obtain ⟨-, -, -, -, -, -, h7, h8, -⟩ := stripRV_fields h
  unfold Movement.expected_volume
  rw [h7, h8]

theorem stripRV_eff_vol {a b : Movement} (h : stripRV a = stripRV b) :
    get_effective_volume a = get_effective_volume b := by
  unfold get_effective_volume
  rw [(stripRV_fields h).2.2.2.1, stripRV_expected h]

theorem stripRV_apply (l : ℚ) (t : String) {a b : Movement}
    (h : stripRV a = stripRV b) :
    apply_movement_to_level l a t = apply_movement_to_level l b t := by
  unfold apply_movement_to_level
  rw [stripRV_eff_vol h, (stripRV_fields h).2.1, stripRV_tank_id h,
    (stripRV_fields h).2.2.1]

theorem stripRV_tankMatchB (t : String) {a b : Movement}
    (h : stripRV a = stripRV b) : tankMatchB t a = tankMatchB t b := by
  obtain ⟨-, -, h3, -, h5, h6, -⟩ := stripRV_fields h
  unfold tankMatchB
  rw [h3, h5, h6]

theorem stripRV_set_rv (m : Movement) (v : ℚ) :
    stripRV { m with resulting_volume := some v } = stripRV m := rfl

theorem stripRV_set_trv (m : Movement) (v : ℚ) :
    stripRV { m with target_resulting_volume := some v } = stripRV m := rfl

theorem set_rv_self {m : Movement} {v : ℚ} (h : m.resulting_volume = some v) :
    { m with resulting_volume := some v } = m := by
  cases m
  dsimp only at h ⊢
  rw [h]

theorem set_trv_self {m : Movement} {v : ℚ}
    (h : m.target_resulting_volume = some v) :
    { m with target_resulting_volume := some v } = m := by
  cases m
  dsimp only at h ⊢
  rw [h]

theorem updateRV_all (S : List Movement) (i : String) (v : ℚ) :
    ∀ x ∈ updateResultingVolume S i v, x.id = i →
      x.resulting_volume = some v := by
  intro x hx hxi
  unfold updateResultingVolume at hx
  obtain ⟨y, hy, hyx⟩ := List.mem_map.mp hx
  by_cases hyid : y.id = i
  · rw [if_pos hyid] at hyx
    rw [← hyx]
  · rw [if_neg hyid] at hyx
    subst hyx
    exact absurd hxi hyid

theorem updateTRV_all (S : List Movement) (i : String) (v : ℚ) :
    ∀ x ∈ updateTargetResultingVolume S i v, x.id = i →
      x.target_resulting_volume = some v := by
  intro x hx hxi
  unfold updateTargetResultingVolume at hx
  obtain ⟨y, hy, hyx⟩ := List.mem_map.mp hx
  by_cases hyid : y.id = i
  · rw [if_pos hyid] at hyx
    rw [← hyx]
  · rw [if_neg hyid] at hyx
    subst hyx
    exact absurd hxi hyid

theorem updateRV_noop {S : List Movement} {i : String} {v : ℚ}
    (h : ∀ x ∈ S, x.id = i → x.resulting_volume = some v) :
    updateResultingVolume S i v = S := by
  induction S with
  | nil => rfl
  | cons y t ih =>
    unfold updateResultingVolume at ih ⊢
    rw [List.map_cons]
    congr 1
    · by_cases hyid : y.id = i
      · rw [if_pos hyid]
        exact set_rv_self (h y (List.mem_cons_self y t) hyid)
      · rw [if_neg hyid]
    · exact ih (fun x hx hxi => h x (List.mem_cons_of_mem y hx) hxi)

theorem updateTRV_noop {S : List Movement} {i : String} {v : ℚ}
    (h : ∀ x ∈ S, x.id = i → x.target_resulting_volume = some v) :
    updateTargetResultingVolume S i v = S := by
  induction S with
  | nil => rfl
  | cons y t ih =>
    unfold updateTargetResultingVolume at ih ⊢
    rw [List.map_cons]
    congr 1
    · by_cases hyid : y.id = i
      · rw [if_pos hyid]
        exact set_trv_self (h y (List.mem_cons_self y t) hyid)
      · rw [if_neg hyid]
    · exact ih (fun x hx hxi => h x (List.mem_cons_of_mem y hx) hxi)

/-- `recalcStep` written out as a plain tuple. -/
theorem recalcStep_eq (tank : Tank) (today : Nat) (S : List Movement)
    (a b : ℚ) (m : Movement) :
    recalcStep tank today (S, a, b) m =
      (if m.tank_id = some tank.id then
        updateResultingVolume S m.id
          (round2 (apply_movement_to_level a m tank.id))
      else if m.target_tank_id = some tank.id then
        updateTargetResultingVolume S m.id
          (round2 (apply_movement_to_level a m tank.id))
      else S,
      apply_movement_to_level a m tank.id,
      match m.scheduled_date with
      | some d => if d ≤ today then apply_movement_to_level a m tank.id else b
      | none => b) := rfl

/-- Once every copy of movement `i` carries `resulting_volume = some v`, the
rest of the recalculation fold (which writes only at other ids) keeps it. -/
theorem recalc_fold_rv_stable (tank : Tank) (today : Nat) (i : String)
    (v : ℚ) :
    ∀ (ms S : List Movement) (a b : ℚ),
    i ∉ ms.map Movement.id →
    (∀ x ∈ S, x.id = i → x.resulting_volume = some v) →
    ∀ x ∈ (List.foldl (recalcStep tank today) (S, a, b) ms).1,
      x.id = i → x.resulting_volume = some v := by
  intro ms
  induction ms with
  | nil => intro S a b _ hS x hx; exact hS x hx
  | cons m t ih =>
    intro S a b hni hS
    rw [List.map_cons] at hni
    have hmi : m.id ≠ i := fun h => hni (by rw [h]; exact List.mem_cons_self _ _)
    have hni' : i ∉ t.map Movement.id := fun h => hni (List.mem_cons_of_mem _ h)
    rw [List.foldl_cons, recalcStep_eq]
    apply ih _ _ _ hni'
    by_cases h1 : Movement.tank_id m = some tank.id
    · rw [if_pos h1]
      intro x hx hxi
      unfold updateResultingVolume at hx
      obtain ⟨y, hy, hyx⟩ := List.mem_map.mp hx
      by_cases hyid : y.id = m.id
      · exfalso
        rw [if_pos hyid] at hyx
        apply hmi
        rw [← hyid]
        rw [← hxi, ← hyx]
      · rw [if_neg hyid] at hyx
        subst hyx
        exact hS y hy hxi
    · rw [if_neg h1]
      by_cases h2 : m.target_tank_id = some tank.id
      · rw [if_pos h2]
        intro x hx hxi
        unfold updateTargetResultingVolume at hx
        obtain ⟨y, hy, hyx⟩ := List.mem_map.mp hx
        by_cases hyid : y.id = m.id
        · rw [if_pos hyid] at hyx
          have hyrv : y.resulting_volume = some v := by
            apply hS y hy
            rw [← hxi, ← hyx]
          rw [← hyx]
          exact hyrv
        · rw [if_neg hyid] at hyx
          subst hyx
          exact hS y hy hxi
      · rw [if_neg h2]
        exact hS

/-- Mirror of `recalc_fold_rv_stable` for `target_resulting_volume`. -/
theorem recalc_fold_trv_stable (tank : Tank) (today : Nat) (i : String)
    (v : ℚ) :
    ∀ (ms S : List Movement) (a b : ℚ),
    i ∉ ms.map Movement.id →
    (∀ x ∈ S, x.id = i → x.target_resulting_volume = some v) →
    ∀ x ∈ (List.foldl (recalcStep tank today) (S, a, b) ms).1,
      x.id = i → x.target_resulting_volume = some v := by
  intro ms
  induction ms with
  | nil => intro S a b _ hS x hx; exact hS x hx
  | cons m t ih =>
    intro S a b hni hS
    rw [List.map_cons] at hni
    have hmi : m.id ≠ i := fun h => hni (by rw [h]; exact List.mem_cons_self _ _)
    have hni' : i ∉ t.map Movement.id := fun h => hni (List.mem_cons_of_mem _ h)
    rw [List.foldl_cons, recalcStep_eq]
    apply ih _ _ _ hni'
    by_cases h1 : Movement.tank_id m = some tank.id
    · rw [if_pos h1]
      intro x hx hxi
      unfold updateResultingVolume at hx
      obtain ⟨y, hy, hyx⟩ := List.mem_map.mp hx
      by_cases hyid : y.id = m.id
      · rw [if_pos hyid] at hyx
        have hyrv : y.target_resulting_volume = some v := by
          apply hS y hy
          rw [← hxi, ← hyx]
        rw [← hyx]
        exact hyrv
      · rw [if_neg hyid] at hyx
        subst hyx
        exact hS y hy hxi
    · rw [if_neg h1]
      by_cases h2 : m.target_tank_id = some tank.id
      · rw [if_pos h2]
        intro x hx hxi
        unfold updateTargetResultingVolume at hx
        obtain ⟨y, hy, hyx⟩ := List.mem_map.mp hx
        by_cases hyid : y.id = m.id
        · exfalso
          rw [if_pos hyid] at hyx
          apply hmi
          rw [← hyid]
          rw [← hxi, ← hyx]
        · rw [if_neg hyid] at hyx
          subst hyx
          exact hS y hy hxi
      · rw [if_neg h2]
        exact hS

/-- The store component of the recalculation fold is a per-element rewrite of
the input store: it preserves every field except the two persisted running
volumes, and leaves elements whose id is not replayed untouched. -/
theorem recalc_fold_map (tank : Tank) (today : Nat) :
    ∀ (ms S : List Movement) (a b : ℚ),
    ∃ F : Movement → Movement,
      (∀ x, stripRV (F x) = stripRV x) ∧
      (∀ x, x.id ∉ ms.map Movement.id → F x = x) ∧
      (List.foldl (recalcStep tank today) (S, a, b) ms).1 = S.map F := by
  intro ms
  induction ms with
  | nil =>
    intro S a b
    exact ⟨id, fun x => rfl, fun x _ => rfl, (List.map_id S).symm⟩
  | cons m t ih =>
    intro S a b
    rw [List.foldl_cons, recalcStep_eq]
    set w := round2 (apply_movement_to_level a m tank.id) with hw
    by_cases h1 : Movement.tank_id m = some tank.id
    · rw [if_pos h1]
      obtain ⟨F', hs', hid', hmap'⟩ := ih (updateResultingVolume S m.id w) _ _
      refine ⟨F' ∘ (fun x => if x.id = m.id then { x with resulting_volume := some w } else x), ?_, ?_, ?_⟩
      · intro x
        by_cases hx : x.id = m.id
        · simp only [Function.comp, if_pos hx]
          rw [hs' _, stripRV_set_rv]
        · simp only [Function.comp, if_neg hx]
          exact hs' x
      · intro x hx
        rw [List.map_cons, List.mem_cons] at hx
        push_neg at hx
        simp only [Function.comp, if_neg hx.1]
        exact hid' x hx.2
      · rw [hmap']
        unfold updateResultingVolume
        rw [List.map_map]
    · rw [if_neg h1]
      by_cases h2 : m.target_tank_id = some tank.id
      · rw [if_pos h2]
        obtain ⟨F', hs', hid', hmap'⟩ := ih (updateTargetResultingVolume S m.id w) _ _
        refine ⟨F' ∘ (fun x => if x.id = m.id then { x with target_resulting_volume := some w } else x), ?_, ?_, ?_⟩
        · intro x
          by_cases hx : x.id = m.id
          · simp only [Function.comp, if_pos hx]
            rw [hs' _, stripRV_set_trv]
          · simp only [Function.comp, if_neg hx]
            exact hs' x
        · intro x hx
          rw [List.map_cons, List.mem_cons] at hx
          push_neg at hx
          simp only [Function.comp, if_neg hx.1]
          exact hid' x hx.2
        · rw [hmap']
          unfold updateTargetResultingVolume
          rw [List.map_map]
      · rw [if_neg h2]
        obtain ⟨F', hs', hid', hmap'⟩ := ih S _ _
        refine ⟨F', hs', ?_, hmap'⟩
        intro x hx
        rw [List.map_cons, List.mem_cons] at hx
        push_neg at hx
        exact hid' x hx.2

/-- Core of C5: replaying the same movements (up to their rewritten running
volumes) over the already-written store changes nothing — every write of the
second pass stores the value already present — and recomputes the same
levels. -/
theorem recalc_fold_idem (tank : Tank) (today : Nat) :
    ∀ (ms ms₂ S : List Movement) (a b : ℚ),
    (ms.map Movement.id).Nodup →
    List.Forall₂ (fun m₂ m => stripRV m₂ = stripRV m) ms₂ ms →
    List.foldl (recalcStep tank today)
      ((List.foldl (recalcStep tank today) (S, a, b) ms).1, a, b) ms₂ =
      List.foldl (recalcStep tank today) (S, a, b) ms := by
  intro ms
  induction ms with
  | nil =>
    intro ms₂ S a b _ hrel
    rw [List.forall₂_nil_right_iff.mp hrel]
    rfl
  | cons m t ih =>
    intro ms₂ S a b hnd hrel
    obtain ⟨m₂, t₂, hm, ht, rfl⟩ := List.forall₂_cons_right_iff.mp hrel
    rw [List.map_cons, List.nodup_cons] at hnd
    obtain ⟨hmid, hndt⟩ := hnd
    rw [List.foldl_cons, List.foldl_cons, recalcStep_eq tank today S a b m]
    set A := apply_movement_to_level a m tank.id with hA
    set B := (match Movement.scheduled_date m with
      | some d => if d ≤ today then A else b
      | none => b) with hB
    by_cases h1 : Movement.tank_id m = some tank.id
    · rw [if_pos h1]
      have hstep₂ : recalcStep tank today
          ((List.foldl (recalcStep tank today)
            (updateResultingVolume S m.id (round2 A), A, B) t).1, a, b) m₂ =
          ((List.foldl (recalcStep tank today)
            (updateResultingVolume S m.id (round2 A), A, B) t).1, A, B) := by
        rw [recalcStep_eq]
        rw [stripRV_apply a tank.id hm, stripRV_tank_id hm, stripRV_sched hm,
          (stripRV_fields hm).1, ← hA, ← hB, if_pos h1]
        rw [updateRV_noop (recalc_fold_rv_stable tank today m.id (round2 A)
          t _ A B hmid (updateRV_all S m.id (round2 A)))]
      rw [hstep₂]
      exact ih t₂ _ A B hndt ht
    · rw [if_neg h1]
      by_cases h2 : m.target_tank_id = some tank.id
      · rw [if_pos h2]
        have hstep₂ : recalcStep tank today
            ((List.foldl (recalcStep tank today)
              (updateTargetResultingVolume S m.id (round2 A), A, B) t).1,
              a, b) m₂ =
            ((List.foldl (recalcStep tank today)
              (updateTargetResultingVolume S m.id (round2 A), A, B) t).1,
              A, B) := by
          rw [recalcStep_eq]
          rw [stripRV_apply a tank.id hm, stripRV_tank_id hm, stripRV_sched hm,
            (stripRV_fields hm).2.2.1, (stripRV_fields hm).1, ← hA, ← hB,
            if_neg h1, if_pos h2]
          rw [updateTRV_noop (recalc_fold_trv_stable tank today m.id (round2 A)
            t _ A B hmid (updateTRV_all S m.id (round2 A)))]
        rw [hstep₂]
        exact ih t₂ _ A B hndt ht
      · rw [if_neg h2]
        have hstep₂ : recalcStep tank today
            ((List.foldl (recalcStep tank today) (S, A, B) t).1, a, b) m₂ =
            ((List.foldl (recalcStep tank today) (S, A, B) t).1, A, B) := by
          rw [recalcStep_eq]
          rw [stripRV_apply a tank.id hm, stripRV_tank_id hm, stripRV_sched hm,
            (stripRV_fields hm).2.2.1, ← hA, ← hB, if_neg h1, if_neg h2]
        rw [hstep₂]
        exact ih t₂ _ A B hndt ht

theorem map_id_of_mem {α : Type} {l : List α} {f : α → α}
    (h : ∀ x ∈ l, f x = x) : l.map f = l := by
  induction l with
  | nil => rfl
  | cons a t ih =>
    rw [List.map_cons, h a (List.mem_cons_self a t),
      ih (fun x hx => h x (List.mem_cons_of_mem a hx))]

theorem forall₂_strip_map {l : List Movement} {F : Movement → Movement}
    (hF : ∀ x, stripRV (F x) = stripRV x) :
    List.Forall₂ (fun m₂ m => stripRV m₂ = stripRV m) (l.map F) l := by
  induction l with
  | nil => exact List.Forall₂.nil
  | cons a t ih => exact List.Forall₂.cons (hF a) ih

theorem filter_map_strip (p : Movement → Bool) {F : Movement → Movement}
    (hp : ∀ x, p (F x) = p x) (l : List Movement) :
    (l.map F).filter p = (l.filter p).map F := by
  induction l with
  | nil => rfl
  | cons a t ih =>
    rw [List.map_cons, List.filter_cons, List.filter_cons, hp a]
    by_cases h : p a = true
    · rw [if_pos h, if_pos h, List.map_cons, ih]
    · rw [if_neg h, if_neg h, ih]

/-- The from-date replay query commutes with a per-element rewrite of the
store that keeps every queried field. -/
theorem gtm_map_strip (store : List Movement) (tid : String) (d : Nat)
    (ex : Option String) (F : Movement → Movement)
    (hF : ∀ x, stripRV (F x) = stripRV x) :
    get_tank_movements_from_date (store.map F) tid d ex =
      (get_tank_movements_from_date store tid d ex).map F := by
  have hdefAsc : ∀ x y : Movement,
      defDateAscB (F x) (F y) = defDateAscB x y := by
    intro x y
    unfold defDateAscB
    rw [(stripRV_fields (hF x)).2.2.2.2.2.2.2.2.1,
      (stripRV_fields (hF y)).2.2.2.2.2.2.2.2.1]
  have heffAsc : ∀ x y : Movement,
      effDateAscB (F x) (F y) = effDateAscB x y := by
    intro x y
    unfold effDateAscB effDateKey
    rw [stripRV_sched (hF x), stripRV_sched (hF y)]
  have hp : ∀ x : Movement,
      (tankMatchB tid (F x) && (dateGeB (F x).scheduled_date_default d ||
        dateGeB (F x).scheduled_date_manual d)) =
      (tankMatchB tid x && (dateGeB x.scheduled_date_default d ||
        dateGeB x.scheduled_date_manual d)) := by
    intro x
    rw [stripRV_tankMatchB tid (hF x),
      (stripRV_fields (hF x)).2.2.2.2.2.2.2.2.1,
      (stripRV_fields (hF x)).2.2.2.2.2.2.2.2.2.1]
  have hr : ∀ x : Movement, dateGeB (Movement.scheduled_date (F x)) d =
      dateGeB (Movement.scheduled_date x) d := by
    intro x
    rw [stripRV_sched (hF x)]
  cases ex with
  | none =>
    simp only [get_tank_movements_from_date]
    rw [filter_map_strip _ hp store,
      @map_sortB Movement Movement defDateAscB defDateAscB F hdefAsc,
      filter_map_strip _ hr,
      @map_sortB Movement Movement effDateAscB effDateAscB F heffAsc]
  | some e =>
    have hq : ∀ x : Movement, (!((F x).id == e)) = (!(x.id == e)) := by
      intro x
      rw [(stripRV_fields (hF x)).1]
    simp only [get_tank_movements_from_date]
    rw [filter_map_strip _ hp store,
      @map_sortB Movement Movement defDateAscB defDateAscB F hdefAsc,
      filter_map_strip _ hq, filter_map_strip _ hr,
      @map_sortB Movement Movement effDateAscB effDateAscB F heffAsc]

/-- The anchor-window query commutes with a per-element rewrite of the store
that keeps every queried field. -/
theorem startingCandidates_map_strip (store : List Movement) (tank : Tank)
    (d : Nat) (F : Movement → Movement)
    (hF : ∀ x, stripRV (F x) = stripRV x) :
    startingCandidates (store.map F) tank d =
      (startingCandidates store tank d).map F := by
  have hdefDesc : ∀ x y : Movement,
      defDateDescB (F x) (F y) = defDateDescB x y := by
    intro x y
    unfold defDateDescB
    rw [(stripRV_fields (hF x)).2.2.2.2.2.2.2.2.1,
      (stripRV_fields (hF y)).2.2.2.2.2.2.2.2.1]
  have hp : ∀ x : Movement,
      (tankMatchB tank.id (F x) && (dateLtB (F x).scheduled_date_default d ||
        dateLtB (F x).scheduled_date_manual d)) =
      (tankMatchB tank.id x && (dateLtB x.scheduled_date_default d ||
        dateLtB x.scheduled_date_manual d)) := by
    intro x
    rw [stripRV_tankMatchB tank.id (hF x),
      (stripRV_fields (hF x)).2.2.2.2.2.2.2.2.1,
      (stripRV_fields (hF x)).2.2.2.2.2.2.2.2.2.1]
  have hlt : ∀ x : Movement, dateLtB (Movement.scheduled_date (F x)) d =
      dateLtB (Movement.scheduled_date x) d := by
    intro x
    rw [stripRV_sched (hF x)]
  unfold startingCandidates
  rw [filter_map_strip _ hp store,
    @map_sortB Movement Movement defDateDescB defDateDescB F hdefDesc,
    ← List.map_take, filter_map_strip _ hlt]

/-- If the rewrite additionally fixes every movement of the anchor window,
the starting volume is unchanged. -/
theorem starting_volume_map_strip (store : List Movement) (tank : Tank)
    (d : Nat) (F : Movement → Movement)
    (hF : ∀ x, stripRV (F x) = stripRV x)
    (hid : ∀ x ∈ startingCandidates store tank d, F x = x) :
    get_starting_volume_for_tank (store.map F) tank d =
      get_starting_volume_for_tank store tank d := by
  rw [get_starting_volume_spec, get_starting_volume_spec,
    startingCandidates_map_strip store tank d F hF, map_id_of_mem hid]

theorem mem_gtm {store : List Movement} {tid : String} {d : Nat}
    {ex : Option String} {m : Movement}
    (h : m ∈ get_tank_movements_from_date store tid d ex) :
    m ∈ store ∧ dateGeB (Movement.scheduled_date m) d = true := by
  cases ex with
  | none =>
    simp only [get_tank_movements_from_date] at h
    rw [mem_sortB] at h
    have hd := List.of_mem_filter h
    have h2 := List.mem_of_mem_filter h
    rw [mem_sortB] at h2
    exact ⟨List.mem_of_mem_filter h2, hd⟩
  | some e =>
    simp only [get_tank_movements_from_date] at h
    rw [mem_sortB] at h
    have hd := List.of_mem_filter h
    have h2 := List.mem_of_mem_filter h
    have h3 := List.mem_of_mem_filter h2
    rw [mem_sortB] at h3
    exact ⟨List.mem_of_mem_filter h3, hd⟩

theorem mem_startingCandidates {store : List Movement} {tank : Tank} {d : Nat}
    {x : Movement} (h : x ∈ startingCandidates store tank d) :
    x ∈ store ∧ dateLtB (Movement.scheduled_date x) d = true := by
  unfold startingCandidates at h
  have hd := List.of_mem_filter h
  have h2 := List.mem_of_mem_filter h
  have h3 := List.mem_of_mem_take h2
  rw [mem_sortB] at h3
  exact ⟨List.mem_of_mem_filter h3, hd⟩

theorem nodup_ids_filter {l : List Movement} (p : Movement → Bool)
    (h : (l.map Movement.id).Nodup) :
    ((l.filter p).map Movement.id).Nodup :=
  h.sublist ((List.filter_sublist l).map Movement.id)

theorem nodup_ids_sortB {l : List Movement} (le : Movement → Movement → Bool)
    (h : (l.map Movement.id).Nodup) :
    ((sortB le l).map Movement.id).Nodup :=
  ((sortB_perm le l).map Movement.id).nodup_iff.mpr h

/-- With unique document ids in the store, the replay list also has unique
ids. -/
theorem gtm_ids_nodup (store : List Movement) (tid : String) (d : Nat)
    (ex : Option String) (h : (store.map Movement.id).Nodup) :
    ((get_tank_movements_from_date store tid d ex).map Movement.id).Nodup := by
  cases ex with
  | none =>
    simp only [get_tank_movements_from_date]
    exact nodup_ids_sortB _ (nodup_ids_filter _ (nodup_ids_sortB _
      (nodup_ids_filter _ h)))
  | some e =>
    simp only [get_tank_movements_from_date]
    exact nodup_ids_sortB _ (nodup_ids_filter _ (nodup_ids_filter _
      (nodup_ids_sortB _ (nodup_ids_filter _ h))))

/-- **C5.**  Recalculation is idempotent: with unique document ids in the
movement store (a Cosmos DB invariant), running
`_recalculate_tank_volumes(tank, from_date)` again on the store it just
wrote, with no intervening mutation, rewrites exactly the values already
persisted — every movement keeps identical `resulting_volume` and
`target_resulting_volume` — and returns the same rounded level-as-of-today,
hence the same `current_level`. -/
theorem recalculation_idempotent (store : List Movement) (tank : Tank)
    (from_date : Nat) (ex : Option String) (today : Nat)
    (hids : (store.map Movement.id).Nodup) :
    recalculate_tank_volumes
      (recalculate_tank_volumes store tank from_date ex today).1
      tank from_date ex today =
    recalculate_tank_volumes store tank from_date ex today := by
  obtain ⟨F, hFs, hFid, hFmap⟩ := recalc_fold_map tank today
    (get_tank_movements_from_date store tank.id from_date ex) store
    (get_starting_volume_for_tank store tank from_date)
    (get_starting_volume_for_tank store tank from_date)
  have hS1 : (recalculate_tank_volumes store tank from_date ex today).1 =
      store.map F := hFmap
  have hwin : ∀ x ∈ startingCandidates store tank from_date, F x = x := by
    intro x hx
    obtain ⟨hxs, hxd⟩ := mem_startingCandidates hx
    apply hFid
    intro hmem
    rw [List.mem_map] at hmem
    obtain ⟨m, hm, hmid⟩ := hmem
    obtain ⟨hms, hmd⟩ := mem_gtm hm
    have hxm : m = x := List.inj_on_of_nodup_map hids hms hxs hmid
    subst hxm
    cases hsd : Movement.scheduled_date m with
    | none =>
      rw [hsd] at hxd
      simp [dateLtB] at hxd
    | some v =>
      rw [hsd] at hxd hmd
      simp only [dateLtB, decide_eq_true_eq] at hxd
      simp only [dateGeB, decide_eq_true_eq] at hmd
      omega
  have hsv : get_starting_volume_for_tank (store.map F) tank from_date =
      get_starting_volume_for_tank store tank from_date :=
    starting_volume_map_strip store tank from_date F hFs hwin
  have hms2 : get_tank_movements_from_date (store.map F) tank.id from_date
      ex = (get_tank_movements_from_date store tank.id from_date ex).map F :=
    gtm_map_strip store tank.id from_date ex F hFs
  rw [hS1]
  simp only [recalculate_tank_volumes]
  rw [hsv, hms2, ← hFmap]
  rw [recalc_fold_idem tank today _ _ store _ _
    (gtm_ids_nodup store tank.id from_date ex hids) (forall₂_strip_map hFs)]

/-- Witness for C5 at a concrete store: a single load of 10 on day 1,
recalculated from day 0. -/
theorem recalculation_idempotent_witness :
    recalculate_tank_volumes
      (recalculate_tank_volumes
        [{ type := MovementType.load, tank_id_default := some "T",
           expected_volume_default := some 10,
           scheduled_date_default := some 1, id := "m1" }]
        { id := "T", capacity := 100 } 0 none 5).1
      { id := "T", capacity := 100 } 0 none 5 =
    recalculate_tank_volumes
      [{ type := MovementType.load, tank_id_default := some "T",
         expected_volume_default := some 10,
         scheduled_date_default := some 1, id := "m1" }]
      { id := "T", capacity := 100 } 0 none 5 :=
  recalculation_idempotent _ _ 0 none 5 (by decide)

end TankMgmt
